import Mathlib

namespace Websocket

/-!
Verification development for the seehuhn/go-websocket server library.

The definitions below are a shallow embedding of the Go source:
pure functions become Lean functions, stateful code becomes explicit
state passing on record types, machine integers become naturals with
explicit reductions where overflow matters, and fallible code returns
Option or Except.  Loops whose termination depends on the input stream
take an explicit fuel parameter; every theorem supplies enough fuel for
the run it describes.
-/

/-! ## Status codes and close reasons (unnamed/part_004) -/

/-- Connection-info value ServerClosed (Go: iota = 1). -/
def ServerClosed : Nat := 1

/-- Connection-info value ClientClosed. -/
def ClientClosed : Nat := 2

/-- Connection-info value ProtocolViolation. -/
def ProtocolViolation : Nat := 3

/-- Connection-info value WrongMessageType. -/
def WrongMessageType : Nat := 4

/-- Connection-info value ConnDropped. -/
def ConnDropped : Nat := 5

/-- Status code 1000, normal closure. -/
def StatusOK : Nat := 1000

/-- Status code 1001, going away. -/
def StatusGoingAway : Nat := 1001

/-- Status code 1002, protocol error. -/
def StatusProtocolError : Nat := 1002

/-- Status code 1003, unsupported data type. -/
def StatusUnsupportedType : Nat := 1003

/-- Status code 1005, no status present (never sent over the wire). -/
def StatusNotSent : Nat := 1005

/-- Status code 1006, connection dropped (never sent over the wire). -/
def StatusDropped : Nat := 1006

/-- Status code 1007, invalid payload data. -/
def StatusInvalidData : Nat := 1007

/-- Status code 1008, policy violation. -/
def StatusPolicyViolation : Nat := 1008

/-- Status code 1009, message too big. -/
def StatusTooLarge : Nat := 1009

/-- Status code 1010, missing extension (only sent by clients). -/
def StatusClientMissingExtension : Nat := 1010

/-- Status code 1011, internal server error. -/
def StatusInternalServerError : Nat := 1011

/-- Membership in the knownValidCode map of unnamed/part_004 lines 251-263:
the predefined codes both sides may send. -/
def knownValidCode (code : Nat) : Bool :=
  code == StatusOK || code == StatusGoingAway || code == StatusProtocolError ||
  code == StatusUnsupportedType || code == StatusInvalidData ||
  code == StatusPolicyViolation || code == StatusTooLarge ||
  code == StatusInternalServerError

/-- Status.clientCanSend from unnamed/part_004 lines 237-242. -/
def clientCanSend (code : Nat) : Bool :=
  if (3000 ≤ code && code < 5000) || code == StatusClientMissingExtension then
    true
  else
    knownValidCode code

/-- Status.serverCanSend from unnamed/part_004 lines 244-249. -/
def serverCanSend (code : Nat) : Bool :=
  if 3000 ≤ code && code < 5000 then
    true
  else
    knownValidCode code

/-! ## Go unicode/utf8 semantics

The reader validates close-frame reasons and text messages with
utf8.Valid, utf8.DecodeRune and utf8.RuneStart from the Go standard
library.  The functions below reproduce the semantics of those library
functions on byte lists (each byte a natural below 256), following the
first-byte and accept-range tables of the utf8 package. -/

/-- Number of bytes of the UTF-8 encoding that starts with first byte b0,
or 0 if no valid encoding starts with b0 (the xx entries of the utf8
first-byte table). -/
def runeLen (b0 : Nat) : Nat :=
  if b0 < 0x80 then 1
  else if 0xC2 ≤ b0 && b0 ≤ 0xDF then 2
  else if 0xE0 ≤ b0 && b0 ≤ 0xEF then 3
  else if 0xF0 ≤ b0 && b0 ≤ 0xF4 then 4
  else 0

/-- Lower bound of the accept range for the second byte, given the first. -/
def acceptLo (b0 : Nat) : Nat :=
  if b0 == 0xE0 then 0xA0 else if b0 == 0xF0 then 0x90 else 0x80

/-- Upper bound of the accept range for the second byte, given the first. -/
def acceptHi (b0 : Nat) : Nat :=
  if b0 == 0xED then 0x9F else if b0 == 0xF4 then 0x8F else 0xBF

/-- Check of the second byte of a multi-byte encoding against the
accept range selected by the first byte. -/
def accept2 (b0 b1 : Nat) : Bool :=
  acceptLo b0 ≤ b1 && b1 ≤ acceptHi b0

/-- Check of a trailing continuation byte (range 0x80 to 0xBF). -/
def isContByte (b : Nat) : Bool :=
  0x80 ≤ b && b ≤ 0xBF

/-- utf8.RuneStart: reports whether the byte could be the first byte of
an encoded rune. -/
def runeStart (b : Nat) : Bool :=
  b &&& 0xC0 != 0x80

/-- utf8.Valid on a byte list: the list is a concatenation of complete,
well-formed UTF-8 encodings. -/
def utf8Valid : List Nat → Bool
  | [] => true
  | b0 :: rest =>
    if b0 < 0x80 then utf8Valid rest
    else if runeLen b0 == 2 then
      match rest with
      | b1 :: r => accept2 b0 b1 && utf8Valid r
      | [] => false
    else if runeLen b0 == 3 then
      match rest with
      | b1 :: b2 :: r => accept2 b0 b1 && isContByte b2 && utf8Valid r
      | _ => false
    else if runeLen b0 == 4 then
      match rest with
      | b1 :: b2 :: b3 :: r =>
        accept2 b0 b1 && isContByte b2 && isContByte b3 && utf8Valid r
      | _ => false
    else false

/-- Code point of the replacement character, utf8.RuneError. -/
def RuneError : Nat := 0xFFFD

/-- utf8.DecodeRune on a byte list: the first rune of the list and the
number of bytes consumed.  Empty input gives (RuneError, 0); invalid or
incomplete input gives (RuneError, 1). -/
def decodeRune : List Nat → Nat × Nat
  | [] => (RuneError, 0)
  | b0 :: rest =>
    if b0 < 0x80 then (b0, 1)
    else if runeLen b0 == 2 then
      match rest with
      | b1 :: _ =>
        if accept2 b0 b1 then (((b0 &&& 0x1F) <<< 6) ||| (b1 &&& 0x3F), 2)
        else (RuneError, 1)
      | [] => (RuneError, 1)
    else if runeLen b0 == 3 then
      match rest with
      | b1 :: b2 :: _ =>
        if accept2 b0 b1 && isContByte b2 then
          (((b0 &&& 0x0F) <<< 12) ||| ((b1 &&& 0x3F) <<< 6) ||| (b2 &&& 0x3F), 3)
        else (RuneError, 1)
      | _ => (RuneError, 1)
    else if runeLen b0 == 4 then
      match rest with
      | b1 :: b2 :: b3 :: _ =>
        if accept2 b0 b1 && isContByte b2 && isContByte b3 then
          (((b0 &&& 0x07) <<< 18) ||| ((b1 &&& 0x3F) <<< 12) |||
            ((b2 &&& 0x3F) <<< 6) ||| (b3 &&& 0x3F), 4)
        else (RuneError, 1)
      | _ => (RuneError, 1)
    else (RuneError, 1)

/-! ## Close-frame body parsing (reader.go lines 82-101)

When the read manager leaves its loop because a close frame was
received, the frame body (already unmasked, in rb.scratch) determines
the client status and message.  The record below captures the fields
the code assigns: clientStatus, clientMessage and rb.connInfo (the
latter through failConnection, whose connInfo assignment is the effect
visible here). -/

/-- Result of the close-body switch in readManager. -/
structure CloseParse where
  clientStatus : Nat
  clientMessage : List Nat
  connInfo : Nat
  deriving Repr, DecidableEq

/-- Close-frame body handling of reader.go lines 82-101, starting from
clientStatus = StatusDropped, empty message, and the connection-info
value connInfo0 the receiver holds when the loop exits. -/
def parseCloseBody (connInfo0 : Nat) (body : List Nat) : CloseParse :=
  match body with
  | [] => ⟨StatusNotSent, [], connInfo0⟩
  | [_] => ⟨StatusDropped, [], ProtocolViolation⟩
  | b0 :: b1 :: rest =>
    let s := (256 * b0 + b1) % 65536
    if clientCanSend s && utf8Valid rest then ⟨s, rest, connInfo0⟩
    else ⟨StatusDropped, [], ProtocolViolation⟩

/-! ## Shutdown emission (reader.go lines 103-127)

After the loop exits and the close body (if any) has been parsed, the
read manager claims the sender slot.  If the slot still holds the
sender (the application has not started a close), a close frame is
sent; its status is chosen from the terminal connection info.  The
sender type itself is not part of the sources here; its sendCloseFrame
call is modelled as emitting one close frame with the given status. -/

/-- Modelled from the spec: sender.sendCloseFrame is absent from the
sources; per spec sections 4.4 and 6 the sender, once acquired, emits a
single close frame with the given status code.  The emission is
represented by the status value itself; the caller records it. -/
def sendCloseFrame (status : Nat) : Nat := status

/-- Shutdown decision of reader.go lines 103-127: given whether the
sender slot still holds the sender (wb not nil), the terminal
connection info of the receiver and the parsed client status, returns
the close frame emitted (if any, by its status) and the final
connection info stored on the Conn. -/
def readManagerShutdown (senderAvailable : Bool) (connInfo : Nat)
    (clientStatus : Nat) : Option Nat × Nat :=
  if senderAvailable then
    let closeStatus :=
      if connInfo == 0 then clientStatus
      else if connInfo == WrongMessageType then StatusUnsupportedType
      else StatusProtocolError
    (some (sendCloseFrame closeStatus),
     if connInfo == 0 then ClientClosed else connInfo)
  else
    (none, if connInfo == 0 then ServerClosed else connInfo)

/-! ## Conn.Close argument checks (unnamed/part_004 lines 107-147) -/

/-- Errors surfaced by the public API (error.go). -/
inductive WsError
  | connClosed
  | messageType
  | statusCode
  | tooLarge
  deriving Repr, DecidableEq

/-- Connection state visible to Conn.Close: whether the sender store
channel has been closed (a receive yields nil) and whether shutdown has
started (sender.isShuttingDown). -/
structure CloseConnState where
  senderStoreClosed : Bool
  shuttingDown : Bool
  deriving Repr, DecidableEq

/-- Result of a Conn.Close call: the returned error, the resulting
state, and the close frames emitted as (status, body) pairs. -/
structure CloseCallResult where
  err : Option WsError
  state : CloseConnState
  framesSent : List (Nat × List Nat)
  deriving Repr, DecidableEq

/-- Conn.Close from unnamed/part_004 lines 107-147.  The message is the
byte list of the utf-8 representation of the Go string.  The emission
of the close frame by the missing sender.sendCloseFrame is modelled
from the spec as recording the single (status, body) pair; the
3-second grace timer only touches the raw socket and is omitted. -/
def connClose (st : CloseConnState) (code : Nat) (message : List Nat) :
    CloseCallResult :=
  if ¬ (serverCanSend code || code == StatusNotSent) then
    ⟨some .statusCode, st, []⟩
  else if message.length > 125 - 2 then
    ⟨some .tooLarge, st, []⟩
  else if st.senderStoreClosed || st.shuttingDown then
    ⟨some .connClosed, st, []⟩
  else
    ⟨none, { st with senderStoreClosed := true }, [(code, message)]⟩

/-! ## Message types (unnamed/part_004 lines 289-299) -/

/-- Opcode of a text message frame. -/
def Text : Nat := 1

/-- Opcode of a binary message frame. -/
def Binary : Nat := 2

/-- Opcode of a continuation frame. -/
def contFrame : Nat := 0

/-- Opcode of a close frame. -/
def closeFrame : Nat := 8

/-- Opcode of a ping frame. -/
def pingFrame : Nat := 9

/-- Opcode of a pong frame. -/
def pongFrame : Nat := 10

/-! ## Streaming writer (writer.go lines 330-394)

SendMessage hands out the connection's frameWriter; its Write method
copies data into a fixed-size buffer and hands a full frame (FIN=0) to
the write multiplexer each time the buffer fills with data left over;
Close hands over the final frame (FIN=1) with the buffered bytes.  The
write multiplexer is modelled as always succeeding, so the Result
channel always delivers nil. -/

/-- Outbound frame as handed to the write multiplexer: opcode, body
bytes and the FIN flag. -/
structure OutFrame where
  opcode : Nat
  body : List Nat
  final : Bool
  deriving Repr, DecidableEq

/-- frameWriter state (writer.go lines 348-355): the data buffer (a
fixed-length byte list), the write position and the opcode of the next
frame. -/
structure FrameWriter where
  buffer : List Nat
  pos : Nat
  opcode : Nat
  deriving Repr, DecidableEq

/-- Result of frameWriter.Write: the final writer state, the total
byte count returned, and the frames handed to the multiplexer. -/
structure WriteResult where
  writer : FrameWriter
  total : Nat
  frames : List OutFrame
  deriving Repr, DecidableEq

/-- frameWriter.Write from writer.go lines 357-382: copy into the
buffer at the write position; if data remains, emit the full buffer as
a non-final frame, reset the position, switch the opcode to
continuation, and repeat.  The loop is fueled; each theorem supplies
enough fuel for the write it describes. -/
def frameWriterWrite (fuel : Nat) (w : FrameWriter) (buf : List Nat) :
    WriteResult :=
  match fuel with
  | 0 => ⟨w, 0, []⟩
  | fuel + 1 =>
    let bsize := w.buffer.length
    let n := min (bsize - w.pos) buf.length
    let buffer1 := w.buffer.take w.pos ++ buf.take n ++ w.buffer.drop (w.pos + n)
    let rest := buf.drop n
    if rest.isEmpty then ⟨⟨buffer1, w.pos + n, w.opcode⟩, n, []⟩
    else
      let res := frameWriterWrite fuel ⟨buffer1, 0, contFrame⟩ rest
      ⟨res.writer, n + res.total, ⟨w.opcode, buffer1, false⟩ :: res.frames⟩

/-- frameWriter.Close from writer.go lines 384-394: the final frame of
the message, FIN=1, carrying the buffered bytes. -/
def frameWriterClose (w : FrameWriter) : OutFrame :=
  ⟨w.opcode, w.buffer.take w.pos, true⟩

/-- Conn.SendMessage from writer.go lines 334-346: reject message
types other than Text and Binary, otherwise take the frame writer from
the connection (none when the connection is closed) and reset it for a
message of the given type. -/
def sendMessage (tp : Nat) (avail : Option FrameWriter) :
    Except WsError FrameWriter :=
  if tp != Text && tp != Binary then
    .error .messageType
  else
    match avail with
    | none => .error .connClosed
    | some w => .ok { w with pos := 0, opcode := tp }

/-! ## Fan-in selection (reader.go lines 552-594)

selectChannel waits with a dynamic select on the receive channels of
all listed connections plus the context.  The concurrency is embedded
as a deterministic loop over the sequence of select events the runtime
delivers: each event names the case that fired.  A connection whose
channel was found closed is replaced by a nil channel, so a
well-formed event sequence never names a disabled index again. -/

/-- Event observed by one iteration of the reflect.Select loop: the
context fires, the receive on connection i reports a closed channel,
or the receive on connection i delivers a receiver. -/
inductive SelectEvent
  | ctxDone
  | chanClosed (i : Nat)
  | recvMsg (i : Nat)
  deriving Repr, DecidableEq

/-- Outcome of selectChannel: index -1 with the context error, index
-1 with ErrConnClosed, or the index of the connection that delivered a
receiver. -/
inductive SelectResult
  | cancelled
  | allClosed
  | message (idx : Nat)
  deriving Repr, DecidableEq

/-- Loop of selectChannel from reader.go lines 572-593, processing the
select events in order while tracking the disabled indices and the
numClosed counter.  The value none means the loop is still blocked in
the select waiting for further events. -/
def selectLoop (n : Nat) : List SelectEvent → List Nat → Nat →
    Option SelectResult
  | [], _, _ => none
  | .ctxDone :: _, _, _ => some .cancelled
  | .chanClosed i :: rest, disabled, numClosed =>
    if numClosed + 1 == n then some .allClosed
    else selectLoop n rest (i :: disabled) (numClosed + 1)
  | .recvMsg i :: _, _, _ => some (.message i)

/-- Well-formedness of an event sequence with respect to the set of
already disabled indices: every event names a case below n that has
not been disabled, and a closed channel is disabled from then on
(reader.go line 587 replaces it by a nil channel). -/
def TraceWF (n : Nat) (disabled : List Nat) : List SelectEvent → Prop
  | [] => True
  | .ctxDone :: rest => TraceWF n disabled rest
  | .chanClosed i :: rest => i < n ∧ i ∉ disabled ∧ TraceWF n (i :: disabled) rest
  | .recvMsg i :: rest => i < n ∧ i ∉ disabled ∧ TraceWF n disabled rest

/-! ## Incoming frames: the receiver (reader.go lines 27-363)

The receiver owns the read half of the connection.  Its bufio.Reader
is embedded as the list of bytes the peer has sent and the server has
not yet consumed; a read returns at most the requested number of bytes
and fails only when no byte is available.  Loops whose iteration count
depends on the input take fuel. -/

/-- Errors travelling along the receive path.  ioEOF stands for io.EOF
and for the end-of-data error of the underlying reader (the code only
ever compares errors against io.EOF, errFrameFormat and ErrTooLarge,
so one end-of-data value suffices); frameFormat is errFrameFormat,
connClosed is ErrConnClosed, tooLarge is ErrTooLarge. -/
inductive RdErr
  | ioEOF
  | frameFormat
  | connClosed
  | tooLarge
  deriving Repr, DecidableEq

/-- Frame header record (unnamed/part_004 lines 278-283). -/
structure FrameHeaderRec where
  length : Nat
  mask : List Nat
  final : Bool
  opcode : Nat
  deriving Repr, DecidableEq

/-- Receiver state (reader.go lines 32-41): the unread network bytes,
the scratch buffer (it holds the unmasked payload of the last control
frame), the current header, the unmasking position, the terminal
connection info (0 while the connection is alive), the one-shot
shutdownStarted flag, and the pong payloads handed to the sender. -/
structure Receiver where
  stream : List Nat
  scratch : List Nat
  header : FrameHeaderRec
  pos : Nat
  connInfo : Nat
  shutdownStarted : Bool
  pongs : List (List Nat)
  deriving Repr, DecidableEq

/-- receiver.failConnection from reader.go lines 296-305: close the
shutdownStarted channel (preventing further writes) and record the
reason. -/
def failConnection (rb : Receiver) (reason : Nat) : Receiver :=
  { rb with shutdownStarted := true, connInfo := reason }

/-- Mask byte used at absolute payload position i (Go indexes the
4-byte mask with pos&3). -/
def maskAt (mask : List Nat) (i : Nat) : Nat :=
  mask.getD (i % 4) 0

/-- receiver.unmask from reader.go lines 289-294, as a pure function:
XOR each byte with the mask byte at the running position. -/
def unmaskBytes (mask : List Nat) : Nat → List Nat → List Nat
  | _, [] => []
  | p, b :: rest => (b ^^^ maskAt mask p) :: unmaskBytes mask (p + 1) rest

/-- Big-endian accumulation of the payload-length bytes, exactly the
loop length = length<<8 | scratch[i] of reader.go lines 262-265. -/
def lenFold (l : List Nat) : Nat :=
  l.foldl (fun acc b => (acc <<< 8) ||| b) 0

/-- Payload length encoded by the second header byte together with the
extended-length bytes: the 7-bit field directly when below 126,
otherwise the big-endian value of the extension bytes. -/
def headerLen (b1 : Nat) (ext : List Nat) : Nat :=
  lenFold (if b1 &&& 127 < 126 then [b1 &&& 127] else ext)

/-- receiver.readFrameHeader from reader.go lines 224-287: consume and
validate a frame header.  A missing byte is an io error (the
connection dropped); a malformed header is errFrameFormat, except that
a short extended-length read is also errFrameFormat (the Go code
checks n < lengthBytes itself). -/
def readFrameHeader (rb : Receiver) : Except RdErr Receiver :=
  match rb.stream with
  | b0 :: b1 :: rest =>
    if b0 &&& (7 <<< 4) != 0 then .error .frameFormat
    else if b1 &&& 128 == 0 then .error .frameFormat
    else
      let l8 := b1 &&& 127
      let lengthBytes := if l8 == 127 then 8 else if l8 == 126 then 2 else 1
      let lenList := if 1 < lengthBytes then rest.take lengthBytes else [l8]
      if lenList.length < lengthBytes then .error .frameFormat
      else
        let rest2 := if 1 < lengthBytes then rest.drop lengthBytes else rest
        let length := lenFold lenList
        if length &&& (1 <<< 63) != 0 then .error .frameFormat
        else if 8 ≤ b0 &&& 15 && (b0 &&& 128 == 0 || 125 < length) then
          .error .frameFormat
        else
          match rest2 with
          | m0 :: m1 :: m2 :: m3 :: rest3 =>
            .ok { rb with
              stream := rest3
              scratch := lenList
              header := ⟨length, [m0, m1, m2, m3], b0 &&& 128 != 0, b0 &&& 15⟩
              pos := 0 }
          | _ => .error .ioEOF
  | _ => .error .ioEOF

/-- Opcodes the reader dispatches on; every other opcode falls into
the default branch of the switch in refill. -/
def opcodeKnown (opcode : Nat) : Bool :=
  opcode == Text || opcode == Binary || opcode == contFrame ||
  opcode == closeFrame || opcode == pingFrame || opcode == pongFrame

/-- Acceptance of the next frame header: readFrameHeader succeeds and
the opcode is one the dispatch switch accepts. -/
def frameHeaderAccepted (rb : Receiver) : Bool :=
  match readFrameHeader rb with
  | .ok rb1 => opcodeKnown rb1.header.opcode
  | .error _ => false

/-- Loop body of receiver.refill from reader.go lines 147-221: read a
frame header; for control frames read and unmask the payload into
scratch; dispatch on the opcode.  Ping frames enqueue a pong and
continue the loop, pong frames are ignored, close frames end the read
side, data frames return subject to the continuation rule. -/
def refillLoop : Nat → Bool → Receiver → Option RdErr × Receiver
  | 0, _, rb => (some .ioEOF, rb)
  | fuel + 1, isCont, rb =>
    match readFrameHeader rb with
    | .error .frameFormat => (some .frameFormat, failConnection rb ProtocolViolation)
    | .error e => (some e, failConnection rb ConnDropped)
    | .ok rb1 =>
      if 8 ≤ rb1.header.opcode ∧ 125 < rb1.header.length then
        (some .connClosed, failConnection rb1 ProtocolViolation)
      else if 8 ≤ rb1.header.opcode ∧ rb1.stream.length < rb1.header.length then
        (some .ioEOF, failConnection rb1 ConnDropped)
      else
        let rb2 :=
          if 8 ≤ rb1.header.opcode then
            { rb1 with
              stream := rb1.stream.drop rb1.header.length
              scratch := unmaskBytes rb1.header.mask 0
                (rb1.stream.take rb1.header.length)
              pos := rb1.header.length }
          else rb1
        if rb2.header.opcode == Text || rb2.header.opcode == Binary then
          if isCont then (some .connClosed, failConnection rb2 ProtocolViolation)
          else (none, rb2)
        else if rb2.header.opcode == contFrame then
          if isCont then (none, rb2)
          else (some .connClosed, failConnection rb2 ProtocolViolation)
        else if rb2.header.opcode == closeFrame then
          (some .connClosed, rb2)
        else if rb2.header.opcode == pingFrame then
          refillLoop fuel isCont { rb2 with pongs := rb2.pongs ++ [rb2.scratch] }
        else if rb2.header.opcode == pongFrame then
          refillLoop fuel isCont rb2
        else
          (some .connClosed, failConnection rb2 ProtocolViolation)

/-- receiver.refill from reader.go lines 143-222: nothing more is read
once a close frame is the current header; otherwise run the loop. -/
def refill (fuel : Nat) (isCont : Bool) (rb : Receiver) :
    Option RdErr × Receiver :=
  if rb.header.opcode == closeFrame then (some .connClosed, rb)
  else refillLoop fuel isCont rb

/-- Read of up to amount bytes from the buffered network stream: at
least one byte is returned when available; an error occurs only when
bytes are requested and none is available. -/
def bufRead (stream : List Nat) (amount : Nat) :
    List Nat × List Nat × Option RdErr :=
  if amount == 0 then ([], stream, none)
  else if stream.isEmpty then ([], stream, some .ioEOF)
  else (stream.take amount, stream.drop amount, none)

/-- frameReader.Read from reader.go lines 312-338: refill while the
current frame is exhausted and not final, then read up to bufLen bytes
of payload, unmask them, and report io.EOF once the final frame is
consumed.  Returns (error, receiver, bytes delivered). -/
def frameReaderRead : Nat → Receiver → Nat → Option RdErr × Receiver × List Nat
  | 0, rb, _ => (some .ioEOF, rb, [])
  | fuel + 1, rb, bufLen =>
    if rb.header.length ≤ rb.pos ∧ rb.header.final = false then
      match refill fuel true rb with
      | (some e, rb1) => (some e, rb1, [])
      | (none, rb1) => frameReaderRead fuel rb1 bufLen
    else
      let amount := min bufLen (rb.header.length - rb.pos)
      let (chunk, rest, err) := bufRead rb.stream amount
      let bytes := unmaskBytes rb.header.mask rb.pos chunk
      let rb1 := { rb with stream := rest, pos := rb.pos + chunk.length }
      match err with
      | some e => (some e, failConnection rb1 ConnDropped, bytes)
      | none =>
        if rb1.header.length ≤ rb1.pos ∧ rb1.header.final = true then
          (some .ioEOF, rb1, bytes)
        else (none, rb1, bytes)

/-- Discard loop of io.Copy(io.Discard, fr) as used by ReadAll: read
32768-byte chunks until io.EOF, counting the bytes discarded. -/
def copyDiscard : Nat → Receiver → Nat → Option RdErr × Receiver × Nat
  | 0, rb, total => (some .ioEOF, rb, total)
  | fuel + 1, rb, total =>
    match frameReaderRead fuel rb 32768 with
    | (some .ioEOF, rb1, bytes) => (none, rb1, total + bytes.length)
    | (some e, rb1, bytes) => (some e, rb1, total + bytes.length)
    | (none, rb1, bytes) => copyDiscard fuel rb1 (total + bytes.length)

/-- frameReader.ReadAll from reader.go lines 343-363: fill the buffer
of length bufLen from the message (io.EOF ends the message cleanly),
then discard any remainder; a non-empty remainder turns into
ErrTooLarge.  Returns (error, receiver, bytes placed in the buffer). -/
def readAllLoop : Nat → Receiver → Nat → List Nat →
    Option RdErr × Receiver × List Nat
  | 0, rb, _, acc => (some .ioEOF, rb, acc)
  | fuel + 1, rb, bufLen, acc =>
    if acc.length < bufLen then
      match frameReaderRead fuel rb (bufLen - acc.length) with
      | (some .ioEOF, rb1, bytes) => (none, rb1, acc ++ bytes)
      | (some e, rb1, bytes) => (some e, rb1, acc ++ bytes)
      | (none, rb1, bytes) => readAllLoop fuel rb1 bufLen (acc ++ bytes)
    else
      match copyDiscard fuel rb 0 with
      | (some e, rb1, _) => (some e, rb1, acc)
      | (none, rb1, k) =>
        (if 0 < k then some .tooLarge else none, rb1, acc)

/-- Conn.doReceiveBinary from reader.go lines 462-476: reject non-
binary messages (failing the connection with WrongMessageType), read
the whole message into a buffer of length bufLen, and fail the
connection as dropped on any error other than ErrTooLarge. -/
def doReceiveBinary (fuel : Nat) (rb : Receiver) (bufLen : Nat) :
    Option RdErr × Receiver × List Nat :=
  if rb.header.opcode != Binary then
    (some .connClosed, failConnection rb WrongMessageType, [])
  else
    match readAllLoop fuel rb bufLen [] with
    | (some .tooLarge, rb1, bytes) => (some .tooLarge, rb1, bytes)
    | (some e, rb1, bytes) => (some e, failConnection rb1 ConnDropped, bytes)
    | (none, rb1, bytes) => (none, rb1, bytes)

/-- Scan loop of Conn.doReceiveText (reader.go lines 532-547) over the
bytes read, as a function of the remaining suffix: decode runes one at
a time; a decode yielding utf8.RuneError either trims the buffer at
the current position (when the read ended with ErrTooLarge, fewer than
utf8.UTFMax bytes remain, and the position holds a rune start) or is a
protocol violation (none).  Returns the number of bytes kept. -/
def textScan (tooLargeFlag : Bool) : Nat → List Nat → Option Nat
  | _, [] => some 0
  | 0, _ :: _ => none
  | fuel + 1, b :: l =>
    let rs := decodeRune (b :: l)
    if rs.1 == RuneError then
      if tooLargeFlag && (b :: l).length ≤ 3 && runeStart b then some 0
      else none
    else
      match textScan tooLargeFlag fuel ((b :: l).drop rs.2) with
      | some k => some (rs.2 + k)
      | none => none

/-- Conn.doReceiveText from reader.go lines 513-550: reject non-text
messages, cap the buffer at the message length when the single final
frame already fits, read the message, and validate the bytes as UTF-8,
trimming a partial trailing rune when the message was truncated.
Returns (error, receiver, bytes of the returned string). -/
def doReceiveText (fuel : Nat) (rb : Receiver) (maxLength : Nat) :
    Option RdErr × Receiver × List Nat :=
  if rb.header.opcode != Text then
    (some .connClosed, failConnection rb WrongMessageType, [])
  else
    let maxLength :=
      if rb.header.final && rb.header.length ≤ maxLength then rb.header.length
      else maxLength
    match readAllLoop fuel rb maxLength [] with
    | (some .tooLarge, rb1, buf) =>
      match textScan true (buf.length + 1) buf with
      | some k => (some .tooLarge, rb1, buf.take k)
      | none => (some .connClosed, { rb1 with connInfo := ProtocolViolation }, [])
    | (some e, rb1, _) => (some e, rb1, [])
    | (none, rb1, buf) =>
      match textScan false (buf.length + 1) buf with
      | some k => (none, rb1, buf.take k)
      | none => (some .connClosed, { rb1 with connInfo := ProtocolViolation }, [])

/-- Text payloads considered by claim C6: a concatenation of complete,
well-formed UTF-8 encodings none of which encodes the replacement
character U+FFFD.  The exclusion of U+FFFD matters because
utf8.DecodeRune returns the same RuneError value both for invalid
input and for a genuine U+FFFD, and the scan loop of doReceiveText
only compares the decoded rune against RuneError. -/
inductive Utf8Text : List Nat → Prop
  | nil : Utf8Text []
  | ascii (b : Nat) (rest : List Nat) : b < 0x80 → Utf8Text rest →
      Utf8Text (b :: rest)
  | two (b0 b1 : Nat) (rest : List Nat) : runeLen b0 = 2 →
      accept2 b0 b1 = true → Utf8Text rest → Utf8Text (b0 :: b1 :: rest)
  | three (b0 b1 b2 : Nat) (rest : List Nat) : runeLen b0 = 3 →
      accept2 b0 b1 = true → isContByte b2 = true →
      ¬ (b0 = 0xEF ∧ b1 = 0xBF ∧ b2 = 0xBD) → Utf8Text rest →
      Utf8Text (b0 :: b1 :: b2 :: rest)
  | four (b0 b1 b2 b3 : Nat) (rest : List Nat) : runeLen b0 = 4 →
      accept2 b0 b1 = true → isContByte b2 = true → isContByte b3 = true →
      Utf8Text rest → Utf8Text (b0 :: b1 :: b2 :: b3 :: rest)

/-! ## The opening handshake (unnamed/part_010) -/

/-- The token-byte table isTokenByte of the handshake file: the
RFC 7230 tchar set. -/
def isTokenByte (b : Nat) : Bool :=
  b == 33 || b == 35 || b == 36 || b == 37 || b == 38 || b == 39 ||
  b == 42 || b == 43 || b == 45 || b == 46 ||
  (decide (48 ≤ b) && decide (b ≤ 57)) ||
  (decide (65 ≤ b) && decide (b ≤ 90)) ||
  b == 94 || b == 95 || b == 96 ||
  (decide (97 ≤ b) && decide (b ≤ 122)) ||
  b == 124 || b == 126

/-- strings.ToLower restricted to a single ASCII byte (token bytes are
always ASCII). -/
def toLowerByte (b : Nat) : Nat :=
  if 65 ≤ b && b ≤ 90 then b + 32 else b

/-- Inner loop of containsTokenFold on one header value: skip
non-token bytes, read a maximal token run, compare its lowercase form
with the (lower-case) token, and continue after the run.  The fuel is
the string length; every step consumes at least one byte. -/
def containsTokenIn (token : List Nat) : Nat → List Nat → Bool
  | 0, _ => false
  | _ + 1, [] => false
  | fuel + 1, b :: rest =>
    if isTokenByte b then
      if ((b :: rest).takeWhile isTokenByte).map toLowerByte == token then
        true
      else containsTokenIn token fuel ((b :: rest).dropWhile isTokenByte)
    else containsTokenIn token fuel rest

/-- containsTokenFold from the handshake file: does any of the header
values contain the token (case-insensitively)? -/
def containsTokenFold (headers : List (List Nat)) (token : List Nat) :
    Bool :=
  headers.any fun s => containsTokenIn token s.length s

/-! crypto/sha1, as used by the handshake (h.Write(key);
h.Write(websocketGUID); h.Sum(nil)): the FIPS 180-1 algorithm on
byte lists, with 32-bit words as naturals reduced mod 2^32. -/

/-- Left rotation of a 32-bit word. -/
def rotl32 (n x : Nat) : Nat :=
  ((x <<< n) ||| (x >>> (32 - n))) &&& 0xFFFFFFFF

/-- SHA-1 round function for round i. -/
def sha1F (i b c d : Nat) : Nat :=
  if i < 20 then (b &&& c) ||| ((b ^^^ 0xFFFFFFFF) &&& d)
  else if i < 40 then b ^^^ c ^^^ d
  else if i < 60 then (b &&& c) ||| (b &&& d) ||| (c &&& d)
  else b ^^^ c ^^^ d

/-- SHA-1 round constant for round i. -/
def sha1K (i : Nat) : Nat :=
  if i < 20 then 0x5A827999
  else if i < 40 then 0x6ED9EBA1
  else if i < 60 then 0x8F1BBCDC
  else 0xCA62C1D6

/-- Big-endian 32-bit words of a byte list. -/
def wordsOfBytes : List Nat → List Nat
  | b0 :: b1 :: b2 :: b3 :: rest =>
    ((b0 <<< 24) ||| (b1 <<< 16) ||| (b2 <<< 8) ||| b3) ::
      wordsOfBytes rest
  | _ => []

/-- Message-schedule extension: append the given number of words
w[i] = rotl1(w[i-3] xor w[i-8] xor w[i-14] xor w[i-16]). -/
def sha1Extend : Nat → List Nat → List Nat
  | 0, w => w
  | n + 1, w =>
    sha1Extend n (w ++ [rotl32 1
      ((w.getD (w.length - 3) 0) ^^^ (w.getD (w.length - 8) 0) ^^^
        (w.getD (w.length - 14) 0) ^^^ (w.getD (w.length - 16) 0))])

/-- One SHA-1 round on the state (a, b, c, d, e). -/
def sha1Round (i : Nat) (w : List Nat)
    (st : Nat × Nat × Nat × Nat × Nat) : Nat × Nat × Nat × Nat × Nat :=
  ((rotl32 5 st.1 + sha1F i st.2.1 st.2.2.1 st.2.2.2.1 + st.2.2.2.2 +
      sha1K i + w.getD i 0) % 4294967296,
   st.1, rotl32 30 st.2.1, st.2.2.1, st.2.2.2.1)

/-- Run the given number of SHA-1 rounds starting at round i. -/
def sha1Rounds : Nat → Nat → List Nat →
    Nat × Nat × Nat × Nat × Nat → Nat × Nat × Nat × Nat × Nat
  | 0, _, _, st => st
  | n + 1, i, w, st => sha1Rounds n (i + 1) w (sha1Round i w st)

/-- Compress one 64-byte block into the hash state h0..h4. -/
def sha1Block (h : List Nat) (block : List Nat) : List Nat :=
  let w := sha1Extend 64 (wordsOfBytes block)
  let st := sha1Rounds 80 0 w
    (h.getD 0 0, h.getD 1 0, h.getD 2 0, h.getD 3 0, h.getD 4 0)
  [(h.getD 0 0 + st.1) % 4294967296,
   (h.getD 1 0 + st.2.1) % 4294967296,
   (h.getD 2 0 + st.2.2.1) % 4294967296,
   (h.getD 3 0 + st.2.2.2.1) % 4294967296,
   (h.getD 4 0 + st.2.2.2.2) % 4294967296]

/-- Fold the 64-byte blocks of a padded message into the hash state;
the fuel is the block count. -/
def sha1Blocks : Nat → List Nat → List Nat → List Nat
  | _, h, [] => h
  | 0, h, _ :: _ => h
  | fuel + 1, h, b :: rest =>
    sha1Blocks fuel (sha1Block h ((b :: rest).take 64))
      ((b :: rest).drop 64)

/-- Big-endian bytes of a 32-bit word. -/
def be32 (n : Nat) : List Nat :=
  [(n >>> 24) &&& 255, (n >>> 16) &&& 255, (n >>> 8) &&& 255, n &&& 255]

/-- Big-endian bytes of a 64-bit word. -/
def be64 (n : Nat) : List Nat :=
  [(n >>> 56) &&& 255, (n >>> 48) &&& 255, (n >>> 40) &&& 255,
   (n >>> 32) &&& 255, (n >>> 24) &&& 255, (n >>> 16) &&& 255,
   (n >>> 8) &&& 255, n &&& 255]

/-- SHA-1 of a byte list: pad with 0x80, zeros to 56 mod 64, and the
big-endian 64-bit bit length, then compress block by block and emit
h0..h4 big-endian. -/
def sha1 (msg : List Nat) : List Nat :=
  let z := (56 + 64 - (msg.length + 1) % 64) % 64
  let padded := msg ++ 0x80 :: (List.replicate z 0 ++ be64 (8 * msg.length))
  let h := sha1Blocks (padded.length / 64)
    [0x67452301, 0xEFCDAB89, 0x98BADCFE, 0x10325476, 0xC3D2E1F0] padded
  be32 (h.getD 0 0) ++ be32 (h.getD 1 0) ++ be32 (h.getD 2 0) ++
    be32 (h.getD 3 0) ++ be32 (h.getD 4 0)

/-- Value of a base64 digit in the standard alphabet
(base64.StdEncoding). -/
def base64Char (n : Nat) : Nat :=
  if n < 26 then 65 + n
  else if n < 52 then 97 + (n - 26)
  else if n < 62 then 48 + (n - 52)
  else if n == 62 then 43
  else 47

/-- base64.StdEncoding.EncodeToString on ASCII codes: groups of three
bytes become four digits, with = padding for a short final group. -/
def base64Encode : List Nat → List Nat
  | b0 :: b1 :: b2 :: rest =>
    base64Char ((((b0 <<< 16) ||| (b1 <<< 8) ||| b2) >>> 18) &&& 63) ::
      base64Char ((((b0 <<< 16) ||| (b1 <<< 8) ||| b2) >>> 12) &&& 63) ::
      base64Char ((((b0 <<< 16) ||| (b1 <<< 8) ||| b2) >>> 6) &&& 63) ::
      base64Char (((b0 <<< 16) ||| (b1 <<< 8) ||| b2) &&& 63) ::
      base64Encode rest
  | [b0, b1] =>
    [base64Char ((((b0 <<< 16) ||| (b1 <<< 8)) >>> 18) &&& 63),
     base64Char ((((b0 <<< 16) ||| (b1 <<< 8)) >>> 12) &&& 63),
     base64Char ((((b0 <<< 16) ||| (b1 <<< 8)) >>> 6) &&& 63), 61]
  | [b0] =>
    [base64Char (((b0 <<< 16) >>> 18) &&& 63),
     base64Char (((b0 <<< 16) >>> 12) &&& 63), 61, 61]
  | [] => []

/-- The GUID from RFC 6455 appended to the client key, ASCII codes of
"258EAFA5-E914-47DA-95CA-C5AB0DC85B11". -/
def websocketGUID : List Nat :=
  [50, 53, 56, 69, 65, 70, 65, 53, 45, 69, 57, 49, 52, 45, 52, 55, 68,
   65, 45, 57, 53, 67, 65, 45, 67, 53, 65, 66, 48, 68, 67, 56, 53, 66,
   49, 49]

/-- The parts of an upgrade request read by Handler.handshake, all
strings as ASCII code lists: the method, the HTTP version, the parse
outcome, path and raw query of the request URI, the Upgrade and
Connection header value lists, and the Sec-WebSocket-Key and
Sec-WebSocket-Version header values. -/
structure HsRequest where
  method : List Nat
  protoMajor : Nat
  protoMinor : Nat
  uriOK : Bool
  uriPath : List Nat
  uriQuery : List Nat
  upgradeHeaders : List (List Nat)
  connectionHeaders : List (List Nat)
  secWebsocketKey : List Nat
  version : List Nat
  deriving Repr, DecidableEq

/-- Handler.handshake from the handshake file, lines 109-223: the
checks in source order (method and HTTP version; request-URI parse;
resource name with an empty path replaced by "/" and "&" + query
appended when the query is nonempty; Upgrade header containing the
websocket token; Connection header containing the upgrade token;
nonempty Sec-WebSocket-Key; Sec-WebSocket-Version equal to "13").
The origin and access-control section (lines 166-194), which depends
on the user callbacks OriginAllowed/AccessAllowed and net/url parsing,
is abstracted into the single boolean outcome accessOK (false rejects
with 403).  Every rejection is none; acceptance returns the resource
name and the Sec-WebSocket-Accept value
base64(SHA1(key || websocketGUID)).  The chosen subprotocol does not
affect these two outputs and is omitted. -/
def handshake (req : HsRequest) (accessOK : Bool) :
    Option (List Nat × List Nat) :=
  if req.method != [71, 69, 84] ||
      (req.protoMajor == 1 && req.protoMinor == 0) then none
  else if !req.uriOK then none
  else if !containsTokenFold req.upgradeHeaders
      [119, 101, 98, 115, 111, 99, 107, 101, 116] then none
  else if !containsTokenFold req.connectionHeaders
      [117, 112, 103, 114, 97, 100, 101] then none
  else if req.secWebsocketKey == [] then none
  else if req.version != [49, 51] then none
  else if !accessOK then none
  else
    some ((if req.uriPath == [] then [47] else req.uriPath) ++
        (if req.uriQuery != [] then 38 :: req.uriQuery else req.uriQuery),
      base64Encode (sha1 (req.secWebsocketKey ++ websocketGUID)))

/-- Resource name as worded by claim C9: the path of the original
request URI, with "&" and the query appended when the query is
nonempty (and nothing more). -/
def claimedResourceName (path query : List Nat) : List Nat :=
  path ++ (if query = [] then [] else 38 :: query)

/-! ## Theorems -/

/-! ## Characterizations of the status-code predicates -/

/-- Unfolding of clientCanSend into the explicit code set. -/
theorem clientCanSend_iff (s : Nat) :
    clientCanSend s = true ↔
      (s ∈ ([1000, 1001, 1002, 1003, 1007, 1008, 1009, 1010, 1011] : List Nat) ∨
        (3000 ≤ s ∧ s ≤ 4999)) := by
  simp only [clientCanSend, knownValidCode, StatusClientMissingExtension,
    StatusOK, StatusGoingAway, StatusProtocolError, StatusUnsupportedType,
    StatusInvalidData, StatusPolicyViolation, StatusTooLarge,
    StatusInternalServerError, List.mem_cons, List.not_mem_nil, or_false]
  split
  · rename_i h
    simp only [Bool.or_eq_true, Bool.and_eq_true, decide_eq_true_eq,
      beq_iff_eq] at h
    exact iff_of_true rfl (by omega)
  · rename_i h
    simp only [Bool.or_eq_true, Bool.and_eq_true, decide_eq_true_eq,
      beq_iff_eq, not_or, not_and] at h
    simp only [Bool.or_eq_true, beq_iff_eq]
    omega

/-- Unfolding of serverCanSend into the explicit code set. -/
theorem serverCanSend_iff (s : Nat) :
    serverCanSend s = true ↔
      (s ∈ ([1000, 1001, 1002, 1003, 1007, 1008, 1009, 1011] : List Nat) ∨
        (3000 ≤ s ∧ s ≤ 4999)) := by
  simp only [serverCanSend, knownValidCode, StatusOK, StatusGoingAway,
    StatusProtocolError, StatusUnsupportedType, StatusInvalidData,
    StatusPolicyViolation, StatusTooLarge, StatusInternalServerError,
    List.mem_cons, List.not_mem_nil, or_false]
  split
  · rename_i h
    simp only [Bool.and_eq_true, decide_eq_true_eq] at h
    exact iff_of_true rfl (by omega)
  · rename_i h
    simp only [Bool.and_eq_true, decide_eq_true_eq, not_and] at h
    simp only [Bool.or_eq_true, beq_iff_eq]
    omega

/-! ## Claim C1 -/

/-- C1: when the reader receives a close frame, an empty body yields
peer status 1005 and no message; a 1-byte body is a protocol
violation; a body of 2 or more bytes yields peer status
256*body[0]+body[1] provided that status is one of 1000, 1001, 1002,
1003, 1007, 1008, 1009, 1010, 1011 or lies in 3000-4999 and the
remaining bytes are valid UTF-8 (which become the peer message); any
other body makes the terminal reason ProtocolViolation. -/
theorem c1_close_body_parse (body : List Nat) (hb : ∀ b ∈ body, b < 256) :
    (body = [] → parseCloseBody 0 body = ⟨StatusNotSent, [], 0⟩) ∧
    (body.length = 1 → (parseCloseBody 0 body).connInfo = ProtocolViolation) ∧
    (∀ b0 b1 rest, body = b0 :: b1 :: rest →
      (((256 * b0 + b1 ∈
            ([1000, 1001, 1002, 1003, 1007, 1008, 1009, 1010, 1011] : List Nat) ∨
          (3000 ≤ 256 * b0 + b1 ∧ 256 * b0 + b1 ≤ 4999)) ∧
          utf8Valid rest = true →
        parseCloseBody 0 body = ⟨256 * b0 + b1, rest, 0⟩) ∧
       (¬ ((256 * b0 + b1 ∈
            ([1000, 1001, 1002, 1003, 1007, 1008, 1009, 1010, 1011] : List Nat) ∨
          (3000 ≤ 256 * b0 + b1 ∧ 256 * b0 + b1 ≤ 4999)) ∧
          utf8Valid rest = true) →
        (parseCloseBody 0 body).connInfo = ProtocolViolation))) := by
  refine ⟨?_, ?_, ?_⟩
  · rintro rfl; rfl
  · intro hlen
    match body, hlen with
    | [b], _ => rfl
  · rintro b0 b1 rest rfl
    have h0 : b0 < 256 := hb b0 (by simp)
    have h1 : b1 < 256 := hb b1 (by simp)
    have hmod : (256 * b0 + b1) % 65536 = 256 * b0 + b1 :=
      Nat.mod_eq_of_lt (by omega)
    constructor
    · rintro ⟨hset, hutf⟩
      have hcs : clientCanSend (256 * b0 + b1) = true :=
        (clientCanSend_iff _).mpr hset
      simp [parseCloseBody, hmod, hcs, hutf]
    · intro hneg
      cases hv : utf8Valid rest with
      | false => simp [parseCloseBody, hmod, hv]
      | true =>
        have hcs : clientCanSend (256 * b0 + b1) = false := by
          cases hc : clientCanSend (256 * b0 + b1) with
          | false => rfl
          | true => exact absurd ⟨(clientCanSend_iff _).mp hc, hv⟩ hneg
        simp [parseCloseBody, hmod, hcs]

/-- Witness for C1 at the concrete body 03 E8 68 69: status 1000 with
message "hi". -/
theorem c1_close_body_parse_witness :
    parseCloseBody 0 [0x03, 0xE8, 0x68, 0x69] = ⟨1000, [0x68, 0x69], 0⟩ :=
  ((c1_close_body_parse [0x03, 0xE8, 0x68, 0x69] (by decide)).2.2
    0x03 0xE8 [0x68, 0x69] rfl).1 (by refine ⟨by norm_num, by decide⟩)

/-! ## Claim C2 -/

/-- C2 counterexample: when the peer dropped the connection without a
close frame (terminal reason ConnDropped, sender slot still available)
the code still emits a close frame, with status 1002, contrary to the
claim that no close frame at all is sent in this case. -/
theorem c2_dropped_sends_close_counterexample :
    readManagerShutdown true ConnDropped StatusDropped =
      (some StatusProtocolError, ConnDropped) ∧
    (readManagerShutdown true ConnDropped StatusDropped).1 ≠ none := by
  decide

/-- C2 (amended): when the reader loop exits and the sender slot is
still available, the server emits exactly one close frame whose status
is the peer status echoed (in particular when the peer closed cleanly
with a status the server can send), 1003 for WrongMessageType, and
1002 both for ProtocolViolation (including an invalid peer close body)
and for ConnDropped; in the ConnDropped case the terminal reason
ConnDropped is still recorded.  If the sender slot is gone, no close
frame is emitted. -/
theorem c2_shutdown_emission (senderAvailable : Bool)
    (connInfo clientStatus : Nat) :
    (senderAvailable = false →
      (readManagerShutdown senderAvailable connInfo clientStatus).1 = none) ∧
    (senderAvailable = true →
      (connInfo = 0 →
        readManagerShutdown senderAvailable connInfo clientStatus =
          (some clientStatus, ClientClosed)) ∧
      (connInfo = WrongMessageType →
        (readManagerShutdown senderAvailable connInfo clientStatus).1 =
          some StatusUnsupportedType) ∧
      (connInfo = ProtocolViolation ∨ connInfo = ConnDropped →
        (readManagerShutdown senderAvailable connInfo clientStatus).1 =
          some StatusProtocolError) ∧
      (connInfo = ConnDropped →
        readManagerShutdown senderAvailable connInfo clientStatus =
          (some StatusProtocolError, ConnDropped))) := by
  refine ⟨?_, ?_⟩
  · rintro rfl; rfl
  · rintro rfl
    refine ⟨?_, ?_, ?_, ?_⟩
    · rintro rfl; rfl
    · rintro rfl; rfl
    · rintro (rfl | rfl) <;> rfl
    · rintro rfl; rfl

/-- Witness for C2 at concrete inputs: a clean close with peer status
1000 is echoed, and a dropped connection yields close status 1002 with
terminal reason ConnDropped. -/
theorem c2_shutdown_emission_witness :
    readManagerShutdown true 0 1000 = (some 1000, ClientClosed) ∧
    readManagerShutdown true ConnDropped StatusDropped =
      (some StatusProtocolError, ConnDropped) :=
  ⟨((c2_shutdown_emission true 0 1000).2 rfl).1 rfl,
   ((c2_shutdown_emission true ConnDropped StatusDropped).2 rfl).2.2.2 rfl⟩

/-! ## Claim C7 -/

/-- C7: Close(code, message) returns ErrStatusCode for every code that
is neither server-sendable (one of 1000, 1001, 1002, 1003, 1007, 1008,
1009, 1011 or in 3000-4999) nor equal to 1005; for an accepted code it
returns ErrTooLarge for every message longer than 123 bytes; in both
error cases no close frame is sent and the connection state is
unchanged.  (The code checks the status first, so an oversized message
together with an invalid code reports ErrStatusCode.) -/
theorem c7_close_rejects (st : CloseConnState) (code : Nat)
    (message : List Nat) :
    (¬ (code ∈ ([1000, 1001, 1002, 1003, 1007, 1008, 1009, 1011] : List Nat) ∨
        (3000 ≤ code ∧ code ≤ 4999)) ∧ code ≠ 1005 →
      connClose st code message = ⟨some .statusCode, st, []⟩) ∧
    ((code ∈ ([1000, 1001, 1002, 1003, 1007, 1008, 1009, 1011] : List Nat) ∨
        (3000 ≤ code ∧ code ≤ 4999) ∨ code = 1005) → message.length > 123 →
      connClose st code message = ⟨some .tooLarge, st, []⟩) := by
  constructor
  · rintro ⟨hset, h1005⟩
    have hs : serverCanSend code = false := by
      rw [← Bool.not_eq_true, serverCanSend_iff]; exact hset
    have : ¬ (serverCanSend code || code == StatusNotSent) = true := by
      simp [hs, StatusNotSent, h1005]
    simp [connClose, this]
  · intro hset hlen
    have hok : (serverCanSend code || code == StatusNotSent) = true := by
      rcases hset with h | h | h
      · simp [(serverCanSend_iff code).mpr (Or.inl h)]
      · simp [(serverCanSend_iff code).mpr (Or.inr h)]
      · simp [h, StatusNotSent]
    have hlen2 : message.length > 125 - 2 := by omega
    simp [connClose, hok, hlen2]

/-- Witness for C7 at concrete inputs: code 1004 is rejected with
ErrStatusCode, and a 124-byte message with code 1000 is rejected with
ErrTooLarge, in both cases with no frame sent and the state unchanged. -/
theorem c7_close_rejects_witness :
    connClose ⟨false, false⟩ 1004 [] =
      ⟨some .statusCode, ⟨false, false⟩, []⟩ ∧
    connClose ⟨false, false⟩ 1000 (List.replicate 124 0) =
      ⟨some .tooLarge, ⟨false, false⟩, []⟩ :=
  ⟨(c7_close_rejects ⟨false, false⟩ 1004 []).1 (by decide),
   (c7_close_rejects ⟨false, false⟩ 1000 (List.replicate 124 0)).2
     (by norm_num) (by simp)⟩

/-! ## Claim C8 -/

set_option maxRecDepth 4000 in
/-- C8 counterexample: a 1-byte Write on a fresh writer with the
default 502-byte buffer emits no frame at all (the bytes are only
buffered), contrary to the claim that each call to Write emits exactly
one frame with FIN=0 carrying the written bytes. -/
theorem c8_write_buffers_counterexample :
    (frameWriterWrite 2 ⟨List.replicate 502 0, 0, Binary⟩ [7]).frames = [] ∧
    (frameWriterWrite 2 ⟨List.replicate 502 0, 0, Binary⟩ [7]).frames ≠
      [⟨Binary, [7], false⟩] := by
  constructor
  · rfl
  · decide

/-- Helper for C8: a write that fits into the remaining buffer space
only copies the bytes and emits no frame. -/
theorem frameWriterWrite_fits (fuel : Nat) (w : FrameWriter) (d : List Nat)
    (hfit : w.pos + d.length ≤ w.buffer.length) :
    frameWriterWrite (fuel + 1) w d =
      ⟨⟨w.buffer.take w.pos ++ d ++ w.buffer.drop (w.pos + d.length),
        w.pos + d.length, w.opcode⟩, d.length, []⟩ := by
  have hn : min (w.buffer.length - w.pos) d.length = d.length := by omega
  simp [frameWriterWrite, hn, List.drop_length, List.take_of_length_le]

/-- Helper for C8: every frame emitted by frameWriter.Write has FIN=0. -/
theorem frameWriterWrite_frames_not_final (fuel : Nat) :
    ∀ (w : FrameWriter) (d : List Nat),
      ∀ f ∈ (frameWriterWrite fuel w d).frames, f.final = false := by
  induction fuel with
  | zero => intro w d f hf; simp [frameWriterWrite] at hf
  | succ fuel ih =>
    intro w d f hf
    rw [frameWriterWrite] at hf
    by_cases hrest : (d.drop (min (w.buffer.length - w.pos) d.length)).isEmpty
    · simp [hrest] at hf
    · simp only [hrest, Bool.false_eq_true, if_false, List.mem_cons] at hf
      rcases hf with rfl | hf
      · rfl
      · exact ih _ _ f hf

/-- C8 (amended): each call to Write on a writer obtained from
SendMessage(kind) with kind in Text, Binary copies the written bytes
into the internal buffer and emits a frame, always with FIN=0, only
each time the buffer fills with data left over (in particular a write
that fits into the buffer emits no frame, and a write that overflows
the buffer once emits exactly one frame carrying the first buffer-load
of the message); Close emits the final frame of the message with FIN=1
carrying the buffered bytes; for any kind outside Text, Binary,
SendMessage returns the invalid-message-type error and no writer is
acquired, so no frame is emitted. -/
theorem c8_streaming_writer (w : FrameWriter) (d : List Nat) (fuel : Nat) :
    (∀ tp avail, tp ≠ Text → tp ≠ Binary →
      sendMessage tp avail = .error .messageType) ∧
    (w.pos + d.length ≤ w.buffer.length →
      frameWriterWrite (fuel + 1) w d =
        ⟨⟨w.buffer.take w.pos ++ d ++ w.buffer.drop (w.pos + d.length),
          w.pos + d.length, w.opcode⟩, d.length, []⟩) ∧
    (w.pos = 0 → w.buffer.length < d.length →
      d.length ≤ 2 * w.buffer.length →
      (frameWriterWrite (fuel + 2) w d).frames =
        [⟨w.opcode, d.take w.buffer.length, false⟩] ∧
      (frameWriterWrite (fuel + 2) w d).total = d.length) ∧
    (∀ f ∈ (frameWriterWrite fuel w d).frames, f.final = false) ∧
    (frameWriterClose w = ⟨w.opcode, w.buffer.take w.pos, true⟩) := by
  refine ⟨?_, frameWriterWrite_fits fuel w d, ?_,
    frameWriterWrite_frames_not_final fuel w d, rfl⟩
  · intro tp avail h1 h2
    have : (tp != Text && tp != Binary) = true := by
      simp [bne_iff_ne, h1, h2]
    simp [sendMessage, this]
  · intro hpos hlt hle
    have hn : min (w.buffer.length - w.pos) d.length = w.buffer.length := by
      omega
    have hdrop : w.buffer.drop (w.pos + w.buffer.length) = [] :=
      List.drop_eq_nil_of_le (by omega)
    have hrest : (d.drop w.buffer.length).isEmpty = false := by
      rw [List.isEmpty_eq_false_iff_exists_mem]
      have : (d.drop w.buffer.length).length = d.length - w.buffer.length := by
        simp
      rcases List.exists_mem_of_length_pos (l := d.drop w.buffer.length)
        (by omega) with ⟨x, hx⟩
      exact ⟨x, hx⟩
    have hbuf1 : w.buffer.take w.pos ++ d.take w.buffer.length ++
        w.buffer.drop (w.pos + w.buffer.length) = d.take w.buffer.length := by
      rw [hpos]
      simp [List.drop_length]
    rw [frameWriterWrite]
    simp only [hn, hbuf1, hrest, Bool.false_eq_true, if_false]
    have hfit2 : (0 : Nat) + (d.drop w.buffer.length).length ≤
        (d.take w.buffer.length).length := by
      simp
      omega
    rw [frameWriterWrite_fits fuel _ _ hfit2]
    constructor
    · rfl
    · simp
      omega

/-- Witness for C8 at concrete inputs: kind 8 is rejected; a 2-byte
write into a 4-byte buffer emits no frame; a 6-byte write into a
4-byte buffer from position 0 emits one non-final frame with the first
4 bytes; Close after the 2-byte write emits the final frame. -/
theorem c8_streaming_writer_witness :
    sendMessage 8 none = .error .messageType ∧
    frameWriterWrite 1 ⟨[0, 0, 0, 0], 0, Binary⟩ [5, 6] =
      ⟨⟨[5, 6, 0, 0], 2, Binary⟩, 2, []⟩ ∧
    (frameWriterWrite 2 ⟨[0, 0, 0, 0], 0, Binary⟩
        [1, 2, 3, 4, 5, 6]).frames = [⟨Binary, [1, 2, 3, 4], false⟩] ∧
    frameWriterClose ⟨[5, 6, 0, 0], 2, Binary⟩ = ⟨Binary, [5, 6], true⟩ := by
  refine ⟨(c8_streaming_writer ⟨[], 0, 0⟩ [] 0).1 8 none (by decide) (by decide),
    ?_, ((c8_streaming_writer ⟨[0, 0, 0, 0], 0, Binary⟩ [1, 2, 3, 4, 5, 6] 0).2.2.1
      rfl (by decide) (by decide)).1,
    (c8_streaming_writer ⟨[5, 6, 0, 0], 2, Binary⟩ [] 0).2.2.2.2⟩
  have h := (c8_streaming_writer ⟨[0, 0, 0, 0], 0, Binary⟩ [5, 6] 0).2.1
    (by decide)
  simpa using h

/-- Pigeonhole fact used for C10: a duplicate-free list of naturals,
all below n, of length at least n contains every natural below n. -/
theorem nodup_list_complete (l : List Nat) (n : Nat) (hnd : l.Nodup)
    (hlt : ∀ j ∈ l, j < n) (hlen : n ≤ l.length) : ∀ j < n, j ∈ l := by
  intro j hj
  have hsub : l.toFinset ⊆ Finset.range n := by
    intro x hx
    simp only [List.mem_toFinset] at hx
    exact Finset.mem_range.mpr (hlt x hx)
  have hcard : (Finset.range n).card ≤ l.toFinset.card := by
    rw [List.toFinset_card_of_nodup hnd, Finset.card_range]
    exact hlen
  have heq := Finset.eq_of_subset_of_card_le hsub hcard
  rw [← List.mem_toFinset, heq]
  exact Finset.mem_range.mpr hj

/-- Auxiliary invariant argument for C10: if the select loop, started
with a duplicate-free set of disabled indices below n and the matching
numClosed counter, returns allClosed on an event sequence in which the
context never fires, then every index below n was either already
disabled or is closed by an event of the sequence. -/
theorem selectLoop_allClosed_aux (n : Nat) (events : List SelectEvent) :
    ∀ disabled : List Nat, TraceWF n disabled events →
      SelectEvent.ctxDone ∉ events →
      (∀ j ∈ disabled, j < n) → disabled.Nodup →
      selectLoop n events disabled disabled.length = some .allClosed →
      ∀ j < n, j ∈ disabled ∨ .chanClosed j ∈ events := by
  induction events with
  | nil =>
    intro disabled _ _ _ _ hrun
    simp [selectLoop] at hrun
  | cons e rest ih =>
    intro disabled hwf hctx hlt hnd hrun j hj
    cases e with
    | ctxDone => exact absurd (List.mem_cons_self _ _) hctx
    | chanClosed i =>
      obtain ⟨hin, hnotin, hwf2⟩ := hwf
      by_cases hfull : disabled.length + 1 = n
      · have hcomplete := nodup_list_complete (i :: disabled) n
          (List.nodup_cons.mpr ⟨hnotin, hnd⟩)
          (by intro x hx
              rcases List.mem_cons.mp hx with rfl | hx
              · exact hin
              · exact hlt x hx)
          (by simp [hfull])
        rcases List.mem_cons.mp (hcomplete j hj) with rfl | hmem
        · exact Or.inr (List.mem_cons_self _ _)
        · exact Or.inl hmem
      · rw [selectLoop, if_neg (by simpa using hfull)] at hrun
        have hrun2 : selectLoop n rest (i :: disabled)
            (i :: disabled).length = some .allClosed := by
          simpa using hrun
        have := ih (i :: disabled) hwf2
          (fun hc => hctx (List.mem_cons_of_mem _ hc))
          (by intro x hx
              rcases List.mem_cons.mp hx with rfl | hx
              · exact hin
              · exact hlt x hx)
          (List.nodup_cons.mpr ⟨hnotin, hnd⟩) hrun2 j hj
        rcases this with hmem | hev
        · rcases List.mem_cons.mp hmem with rfl | hmem
          · exact Or.inr (List.mem_cons_self _ _)
          · exact Or.inl hmem
        · exact Or.inr (List.mem_cons_of_mem _ hev)
    | recvMsg i =>
      rw [selectLoop] at hrun
      simp at hrun

/-! ## Claim C10 -/

/-- C10: for the fan-in selection over a non-empty list of n
connections with an uncancelled context (the context case never
fires): a connection whose receive channel is found closed is skipped
and the loop keeps waiting on the remaining connections (the run
continues on the rest of the events with that index disabled); the
call returns index -1 with ErrConnClosed (allClosed) only when every
listed connection's channel has been closed; and a receiver delivered
on connection i makes the call return index i. -/
theorem c10_select_channel (n : Nat) (events : List SelectEvent)
    (_hn : 0 < n) (hctx : SelectEvent.ctxDone ∉ events)
    (hwf : TraceWF n [] events) :
    (∀ i rest disabled numClosed, events = .chanClosed i :: rest →
      numClosed + 1 ≠ n →
      selectLoop n events disabled numClosed =
        selectLoop n rest (i :: disabled) (numClosed + 1)) ∧
    (selectLoop n events [] 0 = some .allClosed →
      ∀ j < n, SelectEvent.chanClosed j ∈ events) ∧
    (∀ i rest disabled numClosed, events = .recvMsg i :: rest →
      selectLoop n events disabled numClosed = some (.message i)) := by
  refine ⟨?_, ?_, ?_⟩
  · rintro i rest disabled numClosed rfl hne
    rw [selectLoop, if_neg (by simpa using hne)]
  · intro hrun j hj
    have hh := selectLoop_allClosed_aux n events [] hwf hctx
      (by intro x hx; simp at hx) List.nodup_nil hrun j hj
    rcases hh with hmem | hev
    · simp at hmem
    · exact hev
  · rintro i rest disabled numClosed rfl
    rfl

/-- Witness for C10 at a concrete run: with two connections whose
channels close one after the other, the loop returns allClosed, and
the theorem yields that both indices were indeed closed by the trace. -/
theorem c10_select_channel_witness :
    selectLoop 2 [.chanClosed 0, .chanClosed 1] [] 0 = some .allClosed ∧
    SelectEvent.chanClosed 1 ∈
      ([.chanClosed 0, .chanClosed 1] : List SelectEvent) :=
  ⟨rfl,
   (c10_select_channel 2 [.chanClosed 0, .chanClosed 1] (by norm_num)
      (by simp) (by simp [TraceWF])).2.1 rfl 1 (by norm_num)⟩

/-- Evaluation of readFrameHeader on a stream laid out as the two
leading header bytes, extended-length bytes matching the 7-bit length
field, four mask bytes and the remaining input. -/
theorem readFrameHeader_eval (rb : Receiver) (b0 b1 m0 m1 m2 m3 : Nat)
    (ext tail : List Nat)
    (hrb : rb.stream = b0 :: b1 :: (ext ++ m0 :: m1 :: m2 :: m3 :: tail))
    (hextlen : ext.length =
      (if b1 &&& 127 == 127 then 8 else if b1 &&& 127 == 126 then 2 else 0)) :
    readFrameHeader rb =
      (if b0 &&& (7 <<< 4) != 0 then .error .frameFormat
       else if b1 &&& 128 == 0 then .error .frameFormat
       else if headerLen b1 ext &&& (1 <<< 63) != 0 then .error .frameFormat
       else if 8 ≤ b0 &&& 15 && (b0 &&& 128 == 0 || 125 < headerLen b1 ext) then
         .error .frameFormat
       else .ok { rb with
         stream := tail
         scratch := if b1 &&& 127 < 126 then [b1 &&& 127] else ext
         header := ⟨headerLen b1 ext, [m0, m1, m2, m3], b0 &&& 128 != 0,
           b0 &&& 15⟩
         pos := 0 }) := by
  rcases Nat.lt_or_ge (b1 &&& 127) 126 with hc | hc
  · have e1 : (b1 &&& 127 == 127) = false := by
      simp only [beq_eq_false_iff_ne]; omega
    have e2 : (b1 &&& 127 == 126) = false := by
      simp only [beq_eq_false_iff_ne]; omega
    have hext0 : ext = [] := by
      rw [← List.length_eq_zero, hextlen, e1, e2]
      rfl
    subst hext0
    simp only [readFrameHeader, headerLen, hrb, List.nil_append, e1, e2,
      Bool.false_eq_true, if_false, Nat.lt_irrefl, hc, if_true,
      List.length_cons, List.length_nil]
  · have h127 : b1 &&& 127 ≤ 127 := Nat.and_le_right
    have hnlt : ¬ (b1 &&& 127 < 126) := by omega
    rcases Nat.eq_or_lt_of_le h127 with h7 | h7
    · have e1 : (b1 &&& 127 == 127) = true := by
        simp only [beq_iff_eq]; omega
      have hext8 : ext.length = 8 := by rw [hextlen, e1]; rfl
      have htake : (ext ++ m0 :: m1 :: m2 :: m3 :: tail).take 8 = ext :=
        List.take_left' hext8
      have hdrop : (ext ++ m0 :: m1 :: m2 :: m3 :: tail).drop 8 =
          m0 :: m1 :: m2 :: m3 :: tail :=
        List.drop_left' hext8
      simp only [readFrameHeader, headerLen, hrb, e1, if_true,
        Nat.one_lt_ofNat, htake, hdrop, hext8, Nat.lt_irrefl, if_false, hnlt]
    · have e1 : (b1 &&& 127 == 127) = false := by
        simp only [beq_eq_false_iff_ne]; omega
      have e2 : (b1 &&& 127 == 126) = true := by
        simp only [beq_iff_eq]; omega
      have hext2 : ext.length = 2 := by rw [hextlen, e1, e2]; rfl
      have htake : (ext ++ m0 :: m1 :: m2 :: m3 :: tail).take 2 = ext :=
        List.take_left' hext2
      have hdrop : (ext ++ m0 :: m1 :: m2 :: m3 :: tail).drop 2 =
          m0 :: m1 :: m2 :: m3 :: tail :=
        List.drop_left' hext2
      simp only [readFrameHeader, headerLen, hrb, e1, e2, Bool.false_eq_true,
        if_false, if_true, Nat.one_lt_ofNat, htake, hdrop, hext2,
        Nat.lt_irrefl, hnlt]

/-- Unfolding of opcodeKnown into the explicit opcode set. -/
theorem opcodeKnown_iff (x : Nat) :
    opcodeKnown x = true ↔ x ∈ ([0, 1, 2, 8, 9, 10] : List Nat) := by
  simp only [opcodeKnown, Text, Binary, contFrame, closeFrame, pingFrame,
    pongFrame, Bool.or_eq_true, beq_iff_eq, List.mem_cons, List.not_mem_nil,
    or_false]
  tauto

/-- Helper for C3: when readFrameHeader reports a malformed header,
refill fails the connection with ProtocolViolation. -/
theorem refill_frameFormat_pv (fuel : Nat) (isCont : Bool) (rb : Receiver)
    (hop : rb.header.opcode ≠ closeFrame)
    (hparse : readFrameHeader rb = .error .frameFormat) :
    (refill (fuel + 1) isCont rb).2.connInfo = ProtocolViolation := by
  rw [refill, if_neg (by simp [hop])]
  simp [refillLoop, hparse, failConnection]

/-- C3: frame-header decoding accepts a complete incoming frame header
if and only if the three reserved bits are zero, the MASK bit is 1, an
8-byte extended length has its most-significant bit clear, control
frames (opcode at least 8) have FIN=1 and length at most 125, and the
opcode is one of 0, 1, 2, 8, 9, 10; for every other complete header
(its declared payload available) the connection is failed with a
protocol violation. -/
theorem c3_frame_header (rb : Receiver) (b0 b1 m0 m1 m2 m3 : Nat)
    (ext tail : List Nat)
    (hrb : rb.stream = b0 :: b1 :: (ext ++ m0 :: m1 :: m2 :: m3 :: tail))
    (hextlen : ext.length =
      (if b1 &&& 127 == 127 then 8 else if b1 &&& 127 == 126 then 2 else 0))
    (hop : rb.header.opcode ≠ closeFrame)
    (hbody : headerLen b1 ext ≤ tail.length) :
    (frameHeaderAccepted rb = true ↔
      (b0 &&& 112 = 0 ∧ b1 &&& 128 ≠ 0 ∧
        headerLen b1 ext &&& (1 <<< 63) = 0 ∧
        (8 ≤ b0 &&& 15 → b0 &&& 128 ≠ 0 ∧ headerLen b1 ext ≤ 125) ∧
        (b0 &&& 15) ∈ ([0, 1, 2, 8, 9, 10] : List Nat))) ∧
    (frameHeaderAccepted rb = false → ∀ fuel isCont,
      ((refill (fuel + 1) isCont rb).2).connInfo = ProtocolViolation) := by
  have hparse := readFrameHeader_eval rb b0 b1 m0 m1 m2 m3 ext tail hrb hextlen
  by_cases hres : b0 &&& 112 = 0
  case neg =>
    have hc : (b0 &&& (7 <<< 4) != 0) = true := by simpa using hres
    have hparse2 : readFrameHeader rb = .error .frameFormat := by
      rw [hparse]; simp only [hc, Bool.true_eq_false, if_true]
    have hacc : frameHeaderAccepted rb = false := by
      rw [frameHeaderAccepted, hparse2]
    refine ⟨iff_of_false (by rw [hacc]; simp) (fun h => hres h.1), ?_⟩
    intro _ fuel isCont
    exact refill_frameFormat_pv fuel isCont rb hop hparse2
  case pos =>
  have hcres : (b0 &&& (7 <<< 4) != 0) = false := by simpa using hres
  by_cases hmask : b1 &&& 128 = 0
  case pos =>
    have hmaskb : (b1 &&& 128 == 0) = true := by simpa using hmask
    have hparse2 : readFrameHeader rb = .error .frameFormat := by
      rw [hparse]
      simp only [hcres, hmaskb, Bool.false_eq_true, if_false, if_true]
    have hacc : frameHeaderAccepted rb = false := by
      rw [frameHeaderAccepted, hparse2]
    refine ⟨iff_of_false (by rw [hacc]; simp) (fun h => h.2.1 hmask), ?_⟩
    intro _ fuel isCont
    exact refill_frameFormat_pv fuel isCont rb hop hparse2
  case neg =>
  have hmaskb : (b1 &&& 128 == 0) = false := by simpa using hmask
  by_cases hmsb : headerLen b1 ext &&& (1 <<< 63) = 0
  case neg =>
    have hmsbb : (headerLen b1 ext &&& (1 <<< 63) != 0) = true := by
      simpa using hmsb
    have hparse2 : readFrameHeader rb = .error .frameFormat := by
      rw [hparse]
      simp only [hcres, hmaskb, hmsbb, Bool.false_eq_true, if_false, if_true]
    have hacc : frameHeaderAccepted rb = false := by
      rw [frameHeaderAccepted, hparse2]
    refine ⟨iff_of_false (by rw [hacc]; simp) (fun h => hmsb h.2.2.1), ?_⟩
    intro _ fuel isCont
    exact refill_frameFormat_pv fuel isCont rb hop hparse2
  case pos =>
  have hmsbb : (headerLen b1 ext &&& (1 <<< 63) != 0) = false := by
    simpa using hmsb
  by_cases hctl : (8 ≤ b0 &&& 15 && (b0 &&& 128 == 0 || 125 < headerLen b1 ext)) = true
  case pos =>
    have hparse2 : readFrameHeader rb = .error .frameFormat := by
      rw [hparse]
      simp only [hcres, hmaskb, hmsbb, hctl, Bool.false_eq_true, if_false,
        if_true]
    have hacc : frameHeaderAccepted rb = false := by
      rw [frameHeaderAccepted, hparse2]
    simp only [Bool.and_eq_true, Bool.or_eq_true, decide_eq_true_eq,
      beq_iff_eq] at hctl
    refine ⟨iff_of_false (by rw [hacc]; simp) ?_, ?_⟩
    · rintro ⟨-, hm, -, himpl, -⟩
      rcases hctl with ⟨h8, hfin⟩
      rcases himpl h8 with ⟨hfin2, hle⟩
      rcases hfin with hf | hgt
      · exact hfin2 hf
      · omega
    · intro _ fuel isCont
      exact refill_frameFormat_pv fuel isCont rb hop hparse2
  case neg =>
  have hctlb : (8 ≤ b0 &&& 15 && (b0 &&& 128 == 0 || 125 < headerLen b1 ext)) = false :=
    by simpa using hctl
  have hparse2 : readFrameHeader rb = .ok { rb with
      stream := tail
      scratch := if b1 &&& 127 < 126 then [b1 &&& 127] else ext
      header := ⟨headerLen b1 ext, [m0, m1, m2, m3], b0 &&& 128 != 0,
        b0 &&& 15⟩
      pos := 0 } := by
    rw [hparse]
    simp only [hcres, hmaskb, hmsbb, hctlb, Bool.false_eq_true, if_false]
  have hctlp : ¬ (8 ≤ b0 &&& 15 ∧ (b0 &&& 128 = 0 ∨ 125 < headerLen b1 ext)) := by
    simpa [Bool.and_eq_true, Bool.or_eq_true] using hctlb
  have hacc : frameHeaderAccepted rb = opcodeKnown (b0 &&& 15) := by
    rw [frameHeaderAccepted, hparse2]
  by_cases hknown : opcodeKnown (b0 &&& 15) = true
  case pos =>
    refine ⟨iff_of_true (hacc.trans hknown) ?_, ?_⟩
    · refine ⟨hres, hmask, hmsb, ?_, (opcodeKnown_iff _).mp hknown⟩
      intro h8
      constructor
      · intro hf
        exact hctlp ⟨h8, Or.inl hf⟩
      · by_contra hgt
        exact hctlp ⟨h8, Or.inr (by omega)⟩
    · intro hfalse
      rw [hacc, hknown] at hfalse
      exact absurd hfalse (by simp)
  case neg =>
    have hknownf : opcodeKnown (b0 &&& 15) = false := by
      simpa using hknown
    have hmemf : (b0 &&& 15) ∉ ([0, 1, 2, 8, 9, 10] : List Nat) := by
      intro hm
      exact hknown ((opcodeKnown_iff _).mpr hm)
    refine ⟨iff_of_false (by rw [hacc, hknownf]; simp)
      (fun h => hmemf h.2.2.2.2), ?_⟩
    intro _ fuel isCont
    rw [refill, if_neg (by simp [hop])]
    simp only [opcodeKnown, Bool.or_eq_false_iff, beq_eq_false_iff_ne,
      Text, Binary, contFrame, closeFrame, pingFrame, pongFrame] at hknownf
    obtain ⟨⟨⟨⟨⟨ht, hb⟩, hcf⟩, hclf⟩, hpf⟩, hpo⟩ := hknownf
    rw [refillLoop]
    rw [hparse2]
    simp only [Bool.false_eq_true, if_false]
    by_cases h8 : 8 ≤ b0 &&& 15
    · have hle125 : headerLen b1 ext ≤ 125 := by
        by_contra hgt
        exact hctlp ⟨h8, Or.inr (by omega)⟩
      rw [if_neg (by simp; omega), if_neg (by simp; omega)]
      simp only [h8, if_true]
      simp [Text, Binary, contFrame, closeFrame, pingFrame, pongFrame,
        ht, hb, hcf, hclf, hpf, hpo, failConnection]
    · rw [if_neg (by simp; omega), if_neg (by simp; omega)]
      simp only [h8, if_false]
      simp [Text, Binary, contFrame, closeFrame, pingFrame, pongFrame,
        ht, hb, hcf, hclf, hpf, hpo, failConnection]

/-- Witness for C3 at concrete headers: a final binary frame of length
5 (bytes 82 85) with a mask and 5 payload bytes is accepted, and the
same frame with the reserved opcode 3 makes refill fail the connection
with ProtocolViolation. -/
theorem c3_frame_header_witness :
    frameHeaderAccepted ⟨[0x82, 0x85, 1, 2, 3, 4, 9, 9, 9, 9, 9], [],
      ⟨0, [], false, 2⟩, 0, 0, false, []⟩ = true ∧
    (refill 1 false ⟨[0x83, 0x85, 1, 2, 3, 4, 9, 9, 9, 9, 9], [],
      ⟨0, [], false, 2⟩, 0, 0, false, []⟩).2.connInfo = ProtocolViolation := by
  constructor
  · exact (c3_frame_header _ 0x82 0x85 1 2 3 4 [] [9, 9, 9, 9, 9] rfl
      (by decide) (by decide) (by decide)).1.mpr (by decide)
  · exact (c3_frame_header _ 0x83 0x85 1 2 3 4 [] [9, 9, 9, 9, 9] rfl
      (by decide) (by decide) (by decide)).2 (by decide) 0 false

/-- Mask position lookup in the all-zero mask. -/
theorem maskAt_zeros (i : Nat) : maskAt [0, 0, 0, 0] i = 0 := by
  have h4 : i % 4 < 4 := Nat.mod_lt _ (by norm_num)
  have : i % 4 = 0 ∨ i % 4 = 1 ∨ i % 4 = 2 ∨ i % 4 = 3 := by omega
  rcases this with h | h | h | h <;> simp [maskAt, h]

/-- Unmasking with the all-zero mask key is the identity (a client may
legitimately choose the zero mask key). -/
theorem unmaskBytes_zeros (l : List Nat) : ∀ p, unmaskBytes [0, 0, 0, 0] p l = l := by
  induction l with
  | nil => intro p; rfl
  | cons b rest ih =>
    intro p
    simp [unmaskBytes, maskAt_zeros, ih]

/-- Characterization of frameReader.Read on a final frame masked with
the zero key whose remaining payload is available on the stream: the
read delivers min(bufLen, remaining) payload bytes and reports io.EOF
exactly when it reaches the end of the frame. -/
theorem frameReaderRead_final (fuel : Nat) (rb : Receiver)
    (suf rest0 : List Nat) (bufLen : Nat)
    (hfin : rb.header.final = true) (hmask : rb.header.mask = [0, 0, 0, 0])
    (hstream : rb.stream = suf ++ rest0)
    (hsuf : suf.length + rb.pos = rb.header.length) :
    frameReaderRead (fuel + 1) rb bufLen =
      (if rb.header.length ≤ rb.pos + min bufLen (rb.header.length - rb.pos)
         then some .ioEOF else none,
       { rb with
         stream := suf.drop (min bufLen (rb.header.length - rb.pos)) ++ rest0
         pos := rb.pos + min bufLen (rb.header.length - rb.pos) },
       suf.take (min bufLen (rb.header.length - rb.pos))) := by
  rw [frameReaderRead, if_neg (by simp [hfin])]
  have hminle : min bufLen (rb.header.length - rb.pos) ≤ suf.length := by omega
  have hbr : bufRead rb.stream (min bufLen (rb.header.length - rb.pos)) =
      (suf.take (min bufLen (rb.header.length - rb.pos)),
       suf.drop (min bufLen (rb.header.length - rb.pos)) ++ rest0, none) := by
    by_cases hz : min bufLen (rb.header.length - rb.pos) = 0
    · simp [bufRead, hz, hstream]
    · have hne : rb.stream.isEmpty = false := by
        rw [hstream, List.isEmpty_eq_false_iff_exists_mem]
        rcases List.exists_mem_of_length_pos (l := suf) (by omega) with ⟨x, hx⟩
        exact ⟨x, List.mem_append_left _ hx⟩
      rw [bufRead, if_neg (by simpa using hz), if_neg (by simp [hne])]
      rw [hstream, List.take_append_of_le_length hminle,
        List.drop_append_of_le_length hminle]
  simp only [hbr, hmask, unmaskBytes_zeros, List.length_take]
  have hlt : (min bufLen (rb.header.length - rb.pos)) ⊓ suf.length =
      min bufLen (rb.header.length - rb.pos) := by omega
  simp only [hlt, hfin, eq_self_iff_true, and_true]
  split <;> rfl

/-- Characterization of the discard loop of ReadAll on a final frame
masked with the zero key: the remaining payload is discarded in 32768
byte blocks and counted, and the stream is left just after the frame. -/
theorem copyDiscard_final (fuel : Nat) :
    ∀ (rb : Receiver) (suf rest0 : List Nat) (total : Nat),
      rb.header.final = true → rb.header.mask = [0, 0, 0, 0] →
      rb.stream = suf ++ rest0 → suf.length + rb.pos = rb.header.length →
      suf.length < fuel * 32768 →
      copyDiscard (fuel + 1) rb total =
        (none, { rb with stream := rest0, pos := rb.header.length },
         total + suf.length) := by
  induction fuel with
  | zero =>
    intro rb suf rest0 total _ _ _ _ hbound
    omega
  | succ f ih =>
    intro rb suf rest0 total hfin hmask hstream hsuf hbound
    rw [copyDiscard,
      frameReaderRead_final f rb suf rest0 32768 hfin hmask hstream hsuf]
    by_cases hsmall : suf.length ≤ 32768
    · have hmin : min 32768 (rb.header.length - rb.pos) = suf.length := by
        omega
      rw [hmin, if_pos (by omega), List.take_length]
      have hpos : rb.pos + suf.length = rb.header.length := by omega
      rw [hpos, List.drop_length, List.nil_append]
    · have hmin : min 32768 (rb.header.length - rb.pos) = 32768 := by omega
      rw [hmin, if_neg (by omega)]
      have hlen : (suf.take 32768).length = 32768 := by
        rw [List.length_take]; omega
      have hrec := ih { rb with
          stream := suf.drop 32768 ++ rest0
          pos := rb.pos + 32768 } (suf.drop 32768) rest0
        (total + (suf.take 32768).length) hfin hmask rfl
        (by simp; omega) (by simp; omega)
      dsimp only at hrec ⊢
      rw [hrec]
      have h3 : total + (suf.take 32768).length + (suf.drop 32768).length =
          total + suf.length := by
        rw [hlen, List.length_drop]; omega
      rw [h3]

/-- ReadAll on a single final frame (zero mask key) whose payload is
longer than the buffer: the buffer is filled with the prefix, the rest
of the message is discarded, and ErrTooLarge is reported. -/
theorem readAllLoop_tooLarge (f : Nat) (rb : Receiver)
    (suf rest0 : List Nat) (bufLen : Nat)
    (hfin : rb.header.final = true) (hmask : rb.header.mask = [0, 0, 0, 0])
    (hstream : rb.stream = suf ++ rest0)
    (hsuf : suf.length + rb.pos = rb.header.length)
    (hlt : bufLen < suf.length) (hbound : suf.length < (f + 1) * 32768) :
    readAllLoop (f + 4) rb bufLen [] =
      (some .tooLarge, { rb with stream := rest0, pos := rb.header.length },
       suf.take bufLen) := by
  by_cases hz : bufLen = 0
  · subst hz
    rw [readAllLoop, if_neg (by simp)]
    rw [copyDiscard_final (f + 2) rb suf rest0 0 hfin hmask hstream hsuf
      (by omega)]
    dsimp only
    rw [if_pos (by omega)]
    simp
  · rw [readAllLoop, if_pos (by simpa using Nat.pos_of_ne_zero hz)]
    simp only [List.length_nil, Nat.sub_zero]
    have hfr := frameReaderRead_final (f + 2) rb suf rest0 bufLen hfin hmask
      hstream hsuf
    rw [show f + 2 + 1 = f + 3 from rfl] at hfr
    rw [hfr]
    have hmin : min bufLen (rb.header.length - rb.pos) = bufLen := by omega
    rw [hmin, if_neg (by omega)]
    dsimp only
    rw [readAllLoop, if_neg (by simp; omega)]
    have hcd := copyDiscard_final (f + 1) { rb with
        stream := suf.drop bufLen ++ rest0
        pos := rb.pos + bufLen } (suf.drop bufLen) rest0 0 hfin hmask rfl
      (by simp; omega) (by simp; omega)
    rw [show f + 1 + 1 = f + 2 from rfl] at hcd
    rw [hcd]
    dsimp only
    rw [if_pos (by simp; omega)]
    simp

/-- ReadAll on a single final frame (zero mask key) whose payload fits
in the buffer: the whole payload is delivered with no error. -/
theorem readAllLoop_fits (f : Nat) (rb : Receiver)
    (suf rest0 : List Nat) (bufLen : Nat)
    (hfin : rb.header.final = true) (hmask : rb.header.mask = [0, 0, 0, 0])
    (hstream : rb.stream = suf ++ rest0)
    (hsuf : suf.length + rb.pos = rb.header.length)
    (hle : suf.length ≤ bufLen) :
    readAllLoop (f + 3) rb bufLen [] =
      (none, { rb with stream := rest0, pos := rb.header.length }, suf) := by
  by_cases hz : bufLen = 0
  · subst hz
    have hsnil : suf = [] := List.eq_nil_of_length_eq_zero (by omega)
    subst hsnil
    rw [readAllLoop, if_neg (by simp)]
    rw [copyDiscard_final (f + 1) rb [] rest0 0 hfin hmask hstream hsuf
      (by simp)]
    dsimp only
    rw [if_neg (by simp)]
  · rw [readAllLoop, if_pos (by simpa using Nat.pos_of_ne_zero hz)]
    simp only [List.length_nil, Nat.sub_zero]
    have hfr := frameReaderRead_final (f + 1) rb suf rest0 bufLen hfin hmask
      hstream hsuf
    rw [show f + 1 + 1 = f + 2 from rfl] at hfr
    rw [hfr]
    have hmin : min bufLen (rb.header.length - rb.pos) = suf.length := by
      omega
    rw [hmin, if_pos (by omega), List.take_length]
    have hpos : rb.pos + suf.length = rb.header.length := by omega
    rw [hpos, List.drop_length, List.nil_append]
    dsimp only
    rw [List.nil_append]

/-- Low 7 bits of a byte as a remainder. -/
theorem and127_eq_mod (x : Nat) : x &&& 127 = x % 128 := by
  have h := Nat.and_pow_two_sub_one_eq_mod x 7
  norm_num at h
  exact h

/-- MASK bit of the second header byte 128+l for a 7-bit length l. -/
theorem add128_and128 (l : Nat) (hl : l < 128) : (128 + l) &&& 128 = 128 := by
  have h : (128 + l) &&& 2 ^ 7 = ((128 + l).testBit 7).toNat * 2 ^ 7 :=
    Nat.and_two_pow _ 7
  have ht : (128 + l).testBit 7 = true := by
    have h1 : (128 + l) / 2 ^ 7 = 1 := by norm_num; omega
    rw [Nat.testBit_to_div_mod, h1]
    rfl
  rw [show (2 : Nat) ^ 7 = 128 from by norm_num] at h
  rw [h, ht]
  rfl

/-- Any value below 126 has the 64-bit sign bit clear. -/
theorem small_and_msb (l : Nat) (hl : l < 126) : l &&& (1 <<< 63) = 0 := by
  have h : l &&& 2 ^ 63 = (l.testBit 63).toNat * 2 ^ 63 := Nat.and_two_pow _ 63
  have ht : l.testBit 63 = false :=
    Nat.testBit_lt_two_pow (lt_of_lt_of_le hl (by norm_num))
  rw [show (1 : Nat) <<< 63 = 2 ^ 63 from by rw [Nat.shiftLeft_eq, one_mul]]
  rw [h, ht]
  rfl

/-- Header length encoded directly in the 7-bit field. -/
theorem headerLen_small (l : Nat) (hl : l < 126) : headerLen (128 + l) [] = l := by
  have h1 : (128 + l) &&& 127 = l := by
    rw [and127_eq_mod]; omega
  rw [headerLen, h1, if_pos hl]
  simp [lenFold, Nat.zero_shiftLeft]

/-- C5: a ReceiveBinary(buf) call whose next incoming message is a
final binary frame longer than the buffer returns exactly the buffer
length of bytes (the prefix of the message) together with ErrTooLarge;
the rest of the message is discarded (the stream is left exactly at
the start of the next frame, the connection info stays 0 and shutdown
has not started), and a following ReceiveBinary of a message that fits
in its buffer succeeds: the read manager's refill accepts the next
frame and doReceiveBinary then returns the whole second message with
no error.  Frames are masked with the zero key, which every client may
choose, so the payloads on the wire equal the messages. -/
theorem c5_receive_binary_too_large (msg msg2 rest1 : List Nat)
    (bufLen bufLen2 f : Nat)
    (h1 : bufLen < msg.length) (hbound : msg.length < (f + 1) * 32768)
    (h2 : msg2.length ≤ 125) (h3 : msg2.length ≤ bufLen2) :
    doReceiveBinary (f + 4)
        ⟨msg ++ 0x82 :: (128 + msg2.length) :: 0 :: 0 :: 0 :: 0 ::
            (msg2 ++ rest1), [],
          ⟨msg.length, [0, 0, 0, 0], true, Binary⟩, 0, 0, false, []⟩
        bufLen =
      (some .tooLarge,
       ⟨0x82 :: (128 + msg2.length) :: 0 :: 0 :: 0 :: 0 :: (msg2 ++ rest1),
         [], ⟨msg.length, [0, 0, 0, 0], true, Binary⟩, msg.length, 0, false,
         []⟩,
       msg.take bufLen) ∧
    refill 1 false
        ⟨0x82 :: (128 + msg2.length) :: 0 :: 0 :: 0 :: 0 :: (msg2 ++ rest1),
          [], ⟨msg.length, [0, 0, 0, 0], true, Binary⟩, msg.length, 0, false,
          []⟩ =
      (none,
       ⟨msg2 ++ rest1, [msg2.length],
         ⟨msg2.length, [0, 0, 0, 0], true, Binary⟩, 0, 0, false, []⟩) ∧
    doReceiveBinary 3
        ⟨msg2 ++ rest1, [msg2.length],
          ⟨msg2.length, [0, 0, 0, 0], true, Binary⟩, 0, 0, false, []⟩
        bufLen2 =
      (none,
       ⟨rest1, [msg2.length], ⟨msg2.length, [0, 0, 0, 0], true, Binary⟩,
         msg2.length, 0, false, []⟩,
       msg2) := by
  have hl126 : msg2.length < 126 := by omega
  have hand127 : (128 + msg2.length) &&& 127 = msg2.length := by
    rw [and127_eq_mod]; omega
  refine ⟨?_, ?_, ?_⟩
  · rw [doReceiveBinary, if_neg (by simp)]
    have hra := readAllLoop_tooLarge f
      ⟨msg ++ 0x82 :: (128 + msg2.length) :: 0 :: 0 :: 0 :: 0 ::
          (msg2 ++ rest1), [],
        ⟨msg.length, [0, 0, 0, 0], true, Binary⟩, 0, 0, false, []⟩ msg
      (0x82 :: (128 + msg2.length) :: 0 :: 0 :: 0 :: 0 :: (msg2 ++ rest1))
      bufLen rfl rfl rfl (by simp) h1 hbound
    rw [hra]
  · rw [refill, if_neg (by simp [Binary, closeFrame])]
    rw [refillLoop]
    have hparse := readFrameHeader_eval
      ⟨0x82 :: (128 + msg2.length) :: 0 :: 0 :: 0 :: 0 :: (msg2 ++ rest1),
        [], ⟨msg.length, [0, 0, 0, 0], true, Binary⟩, msg.length, 0, false,
        []⟩
      0x82 (128 + msg2.length) 0 0 0 0 [] (msg2 ++ rest1) rfl
      (by simp only [List.length_nil, beq_iff_eq, hand127]
          rw [if_neg (by omega), if_neg (by omega)])
    simp only [headerLen_small _ hl126,
      show ((0x82 : Nat) &&& (7 <<< 4) != 0) = false from rfl,
      show ((0x82 : Nat) &&& 15) = 2 from rfl,
      show ((0x82 : Nat) &&& 128 != 0) = true from rfl,
      show ((128 + msg2.length) &&& 128 == 0) = false from by
        rw [add128_and128 _ (by omega)]; rfl,
      show (msg2.length &&& (1 <<< 63) != 0) = false from by
        rw [small_and_msb _ hl126]; rfl,
      hand127, hl126, if_pos, if_true, if_false, Bool.false_eq_true,
      Bool.false_and, Bool.false_or, List.nil_append, decide_eq_true_eq]
      at hparse
    rw [show (decide (8 ≤ 2) && ((130 : Nat) &&& 128 == 0 ||
        decide (125 < msg2.length))) = false from by
        rw [show decide (8 ≤ 2) = false from rfl, Bool.false_and]] at hparse
    simp only [Bool.false_eq_true, if_false, if_pos hl126] at hparse
    rw [hparse]
    dsimp only
    rw [if_neg (by omega), if_neg (by omega)]
    simp [Text, Binary]
  · rw [doReceiveBinary, if_neg (by simp)]
    have hra := readAllLoop_fits 0
      ⟨msg2 ++ rest1, [msg2.length],
        ⟨msg2.length, [0, 0, 0, 0], true, Binary⟩, 0, 0, false, []⟩
      msg2 rest1 bufLen2 rfl rfl rfl (by simp) h3
    rw [hra]

/-- Witness for C5 at the spec scenario: a 300-byte binary message
received into a 150-byte buffer yields the 150-byte prefix plus
ErrTooLarge, and the following 100-byte message is then received
whole. -/
theorem c5_receive_binary_witness :
    doReceiveBinary (0 + 4)
        ⟨List.replicate 300 4 ++ 0x82 ::
            (128 + (List.replicate 100 5).length) :: 0 :: 0 :: 0 :: 0 ::
            (List.replicate 100 5 ++ []), [],
          ⟨(List.replicate 300 4).length, [0, 0, 0, 0], true, Binary⟩, 0, 0,
          false, []⟩ 150 =
      (some .tooLarge,
       ⟨0x82 :: (128 + (List.replicate 100 5).length) :: 0 :: 0 :: 0 :: 0 ::
           (List.replicate 100 5 ++ []), [],
         ⟨(List.replicate 300 4).length, [0, 0, 0, 0], true, Binary⟩,
         (List.replicate 300 4).length, 0, false, []⟩,
       (List.replicate 300 4).take 150) ∧
    doReceiveBinary 3
        ⟨List.replicate 100 5 ++ [], [(List.replicate 100 5).length],
          ⟨(List.replicate 100 5).length, [0, 0, 0, 0], true, Binary⟩, 0, 0,
          false, []⟩ 100 =
      (none,
       ⟨[], [(List.replicate 100 5).length],
         ⟨(List.replicate 100 5).length, [0, 0, 0, 0], true, Binary⟩,
         (List.replicate 100 5).length, 0, false, []⟩,
       List.replicate 100 5) :=
  ⟨(c5_receive_binary_too_large (List.replicate 300 4) (List.replicate 100 5)
      [] 150 100 0 (by norm_num) (by norm_num) (by norm_num)
      (by norm_num)).1,
   (c5_receive_binary_too_large (List.replicate 300 4) (List.replicate 100 5)
      [] 150 100 0 (by norm_num) (by norm_num) (by norm_num)
      (by norm_num)).2.2⟩

/-- Low 4 bits as a remainder. -/
theorem and15_eq_mod (x : Nat) : x &&& 15 = x % 16 := by
  have h := Nat.and_pow_two_sub_one_eq_mod x 4
  norm_num at h
  exact h

/-- Low 5 bits as a remainder. -/
theorem and31_eq_mod (x : Nat) : x &&& 31 = x % 32 := by
  have h := Nat.and_pow_two_sub_one_eq_mod x 5
  norm_num at h
  exact h

/-- Low 6 bits as a remainder. -/
theorem and63_eq_mod (x : Nat) : x &&& 63 = x % 64 := by
  have h := Nat.and_pow_two_sub_one_eq_mod x 6
  norm_num at h
  exact h

/-- Low 3 bits as a remainder. -/
theorem and7_eq_mod (x : Nat) : x &&& 7 = x % 8 := by
  have h := Nat.and_pow_two_sub_one_eq_mod x 3
  norm_num at h
  exact h

/-- Range of first bytes of 2-byte encodings. -/
theorem runeLen_eq_two (b0 : Nat) (h : runeLen b0 = 2) :
    0xC2 ≤ b0 ∧ b0 ≤ 0xDF := by
  simp only [runeLen] at h
  split_ifs at h with h1 h2 h3 h4 <;>
    first
    | omega
    | (simp only [Bool.and_eq_true, decide_eq_true_eq] at h2 ⊢; omega)

/-- Range of first bytes of 3-byte encodings. -/
theorem runeLen_eq_three (b0 : Nat) (h : runeLen b0 = 3) :
    0xE0 ≤ b0 ∧ b0 ≤ 0xEF := by
  simp only [runeLen] at h
  split_ifs at h with h1 h2 h3 h4 <;>
    first
    | omega
    | (simp only [Bool.and_eq_true, decide_eq_true_eq] at h3 ⊢; omega)

/-- Range of first bytes of 4-byte encodings. -/
theorem runeLen_eq_four (b0 : Nat) (h : runeLen b0 = 4) :
    0xF0 ≤ b0 ∧ b0 ≤ 0xF4 := by
  simp only [runeLen] at h
  split_ifs at h with h1 h2 h3 h4 <;>
    first
    | omega
    | (simp only [Bool.and_eq_true, decide_eq_true_eq] at h4 ⊢; omega)

/-- Single set bit of a value whose binary digit at position i is 1. -/
theorem and_two_pow_of_bit (b i : Nat) (h : b / 2 ^ i % 2 = 1) :
    b &&& 2 ^ i = 2 ^ i := by
  rw [Nat.and_two_pow, Nat.testBit_to_div_mod, h]
  simp

/-- Every first byte of a multi-byte encoding is a rune start. -/
theorem runeStart_of_multibyte (b : Nat) (h1 : 0xC0 ≤ b) (h2 : b < 256) :
    runeStart b = true := by
  have h7 : b &&& 128 = 128 := by
    have := and_two_pow_of_bit b 7 (by norm_num; omega)
    norm_num at this
    exact this
  have h6 : b &&& 64 = 64 := by
    have := and_two_pow_of_bit b 6 (by norm_num; omega)
    norm_num at this
    exact this
  have h192 : b &&& 192 = 192 := by
    rw [show (192 : Nat) = 128 ||| 64 from rfl, Nat.and_or_distrib_left,
      h7, h6]
  rw [runeStart, h192]
  rfl

/-- Decoded value of a 2-byte encoding is below 0x800, hence not the
replacement character. -/
theorem val2_ne_runeError (b0 b1 : Nat) :
    ((b0 &&& 0x1F) <<< 6) ||| (b1 &&& 0x3F) ≠ RuneError := by
  have ha : b0 &&& 0x1F ≤ 31 := Nat.and_le_right
  have hb : b1 &&& 0x3F ≤ 63 := Nat.and_le_right
  have h1 : (b0 &&& 0x1F) <<< 6 < 2 ^ 11 := by
    rw [Nat.shiftLeft_eq]
    norm_num
    omega
  have h2 : b1 &&& 0x3F < 2 ^ 11 := by norm_num; omega
  have h3 := Nat.or_lt_two_pow h1 h2
  rw [RuneError]
  norm_num at h3
  omega

/-- Decoded value of a non-replacement 3-byte encoding differs from
the replacement character: the only 3-byte encoding of 0xFFFD is
EF BF BD. -/
theorem val3_ne_runeError (b0 b1 b2 : Nat) (h3 : runeLen b0 = 3)
    (ha : accept2 b0 b1 = true) (hc : isContByte b2 = true)
    (hno : ¬ (b0 = 0xEF ∧ b1 = 0xBF ∧ b2 = 0xBD)) :
    ((b0 &&& 0x0F) <<< 12) ||| ((b1 &&& 0x3F) <<< 6) ||| (b2 &&& 0x3F) ≠
      RuneError := by
  intro heq
  have hb := runeLen_eq_three b0 h3
  simp only [isContByte, Bool.and_eq_true, decide_eq_true_eq] at hc
  rw [and15_eq_mod b0, and63_eq_mod b1, and63_eq_mod b2,
    Nat.shiftLeft_eq, Nat.shiftLeft_eq,
    Nat.mul_comm (b0 % 16) (2 ^ 12), Nat.mul_comm (b1 % 64) (2 ^ 6)] at heq
  rw [(Nat.mul_add_lt_is_or (i := 12)
    (show 2 ^ 6 * (b1 % 64) < 2 ^ 12 by norm_num; omega) (b0 % 16)).symm]
    at heq
  rw [show 2 ^ 12 * (b0 % 16) + 2 ^ 6 * (b1 % 64) =
      2 ^ 6 * (2 ^ 6 * (b0 % 16) + b1 % 64) by ring] at heq
  rw [(Nat.mul_add_lt_is_or (i := 6)
    (show b2 % 64 < 2 ^ 6 by norm_num; omega) _).symm] at heq
  rw [RuneError] at heq
  norm_num at heq
  have hb0 : b0 = 0xEF := by omega
  subst hb0
  simp only [accept2, acceptLo, acceptHi, Bool.and_eq_true,
    decide_eq_true_eq] at ha
  norm_num at ha heq
  exact hno ⟨rfl, by omega, by omega⟩

/-- Decoded value of a 4-byte encoding is at least 0x10000, hence not
the replacement character. -/
theorem val4_ne_runeError (b0 b1 b2 b3 : Nat) (h4 : runeLen b0 = 4)
    (ha : accept2 b0 b1 = true) :
    ((b0 &&& 0x07) <<< 18) ||| ((b1 &&& 0x3F) <<< 12) |||
      ((b2 &&& 0x3F) <<< 6) ||| (b3 &&& 0x3F) ≠ RuneError := by
  intro heq
  have hb := runeLen_eq_four b0 h4
  rw [and7_eq_mod b0, and63_eq_mod b1, and63_eq_mod b2, and63_eq_mod b3,
    Nat.shiftLeft_eq, Nat.shiftLeft_eq, Nat.shiftLeft_eq,
    Nat.mul_comm (b0 % 8) (2 ^ 18), Nat.mul_comm (b1 % 64) (2 ^ 12),
    Nat.mul_comm (b2 % 64) (2 ^ 6)] at heq
  rw [(Nat.mul_add_lt_is_or (i := 18)
    (show 2 ^ 12 * (b1 % 64) < 2 ^ 18 by norm_num; omega) (b0 % 8)).symm]
    at heq
  rw [show 2 ^ 18 * (b0 % 8) + 2 ^ 12 * (b1 % 64) =
      2 ^ 12 * (2 ^ 6 * (b0 % 8) + b1 % 64) by ring] at heq
  rw [(Nat.mul_add_lt_is_or (i := 12)
    (show 2 ^ 6 * (b2 % 64) < 2 ^ 12 by norm_num; omega) _).symm] at heq
  rw [show 2 ^ 12 * (2 ^ 6 * (b0 % 8) + b1 % 64) + 2 ^ 6 * (b2 % 64) =
      2 ^ 6 * (2 ^ 6 * (2 ^ 6 * (b0 % 8) + b1 % 64) + b2 % 64) by ring]
    at heq
  rw [(Nat.mul_add_lt_is_or (i := 6)
    (show b3 % 64 < 2 ^ 6 by norm_num; omega) _).symm] at heq
  rw [RuneError] at heq
  norm_num at heq
  by_cases h240 : b0 = 0xF0
  · subst h240
    simp only [accept2, acceptLo, acceptHi, Bool.and_eq_true,
      decide_eq_true_eq] at ha
    norm_num at ha heq
    omega
  · omega

/-- utf8.DecodeRune on an ASCII byte. -/
theorem decodeRune_ascii (b : Nat) (l : List Nat) (h : b < 0x80) :
    decodeRune (b :: l) = (b, 1) := by
  simp [decodeRune, h]

/-- utf8.DecodeRune on a complete 2-byte encoding. -/
theorem decodeRune_two_full (b0 b1 : Nat) (l : List Nat)
    (h2 : runeLen b0 = 2) (ha : accept2 b0 b1 = true) :
    decodeRune (b0 :: b1 :: l) =
      (((b0 &&& 0x1F) <<< 6) ||| (b1 &&& 0x3F), 2) := by
  have hb := runeLen_eq_two b0 h2
  simp [decodeRune, show ¬ b0 < 0x80 by omega, h2, ha]

/-- utf8.DecodeRune on a truncated 2-byte encoding. -/
theorem decodeRune_two_short (b0 : Nat) (h2 : runeLen b0 = 2) :
    decodeRune [b0] = (RuneError, 1) := by
  have hb := runeLen_eq_two b0 h2
  simp [decodeRune, show ¬ b0 < 0x80 by omega, h2]

/-- utf8.DecodeRune on a complete 3-byte encoding. -/
theorem decodeRune_three_full (b0 b1 b2 : Nat) (l : List Nat)
    (h3 : runeLen b0 = 3) (ha : accept2 b0 b1 = true)
    (hc : isContByte b2 = true) :
    decodeRune (b0 :: b1 :: b2 :: l) =
      (((b0 &&& 0x0F) <<< 12) ||| ((b1 &&& 0x3F) <<< 6) ||| (b2 &&& 0x3F),
       3) := by
  have hb := runeLen_eq_three b0 h3
  simp [decodeRune, show ¬ b0 < 0x80 by omega, h3, ha, hc]

/-- utf8.DecodeRune on truncated 3-byte encodings. -/
theorem decodeRune_three_short (b0 b1 : Nat) (h3 : runeLen b0 = 3) :
    decodeRune [b0] = (RuneError, 1) ∧
    decodeRune [b0, b1] = (RuneError, 1) := by
  have hb := runeLen_eq_three b0 h3
  constructor <;> simp [decodeRune, show ¬ b0 < 0x80 by omega, h3]

/-- utf8.DecodeRune on a complete 4-byte encoding. -/
theorem decodeRune_four_full (b0 b1 b2 b3 : Nat) (l : List Nat)
    (h4 : runeLen b0 = 4) (ha : accept2 b0 b1 = true)
    (hc : isContByte b2 = true) (hd : isContByte b3 = true) :
    decodeRune (b0 :: b1 :: b2 :: b3 :: l) =
      (((b0 &&& 0x07) <<< 18) ||| ((b1 &&& 0x3F) <<< 12) |||
        ((b2 &&& 0x3F) <<< 6) ||| (b3 &&& 0x3F), 4) := by
  have hb := runeLen_eq_four b0 h4
  simp [decodeRune, show ¬ b0 < 0x80 by omega, h4, ha, hc, hd]

/-- utf8.DecodeRune on truncated 4-byte encodings. -/
theorem decodeRune_four_short (b0 b1 b2 : Nat) (h4 : runeLen b0 = 4) :
    decodeRune [b0] = (RuneError, 1) ∧
    decodeRune [b0, b1] = (RuneError, 1) ∧
    decodeRune [b0, b1, b2] = (RuneError, 1) := by
  have hb := runeLen_eq_four b0 h4
  refine ⟨?_, ?_, ?_⟩ <;> simp [decodeRune, show ¬ b0 < 0x80 by omega, h4]

/-- textScan accepts the empty buffer at any fuel. -/
theorem textScan_nil (flag : Bool) (fuel : Nat) :
    textScan flag fuel [] = some 0 := by
  cases fuel <;> rfl

/-- One step of textScan on a nonempty buffer. -/
theorem textScan_step (flag : Bool) (fuel b : Nat) (l : List Nat) :
    textScan flag (fuel + 1) (b :: l) =
      if (decodeRune (b :: l)).1 == RuneError then
        if flag && decide ((b :: l).length ≤ 3) && runeStart b then some 0
        else none
      else
        match textScan flag fuel ((b :: l).drop (decodeRune (b :: l)).2) with
        | some k => some ((decodeRune (b :: l)).2 + k)
        | none => none := rfl

/-- The scan loop of doReceiveText, run with the truncation flag on a
prefix of a well-formed text, finds a cut at a rune boundary no longer
than the prefix, and the kept bytes are again a well-formed text. -/
theorem textScan_utf8_prefix (msg : List Nat) (h : Utf8Text msg) :
    ∀ m fuel, (msg.take m).length < fuel →
      ∃ k, textScan true fuel (msg.take m) = some k ∧ k ≤ m ∧
        Utf8Text (msg.take k) := by
  induction h with
  | nil =>
    intro m fuel _
    refine ⟨0, ?_, Nat.zero_le m, ?_⟩
    · rw [List.take_nil]; exact textScan_nil true fuel
    · rw [List.take_nil]; exact Utf8Text.nil
  | ascii b rest hb _ ih =>
    intro m fuel hfuel
    rcases m with _ | m'
    · refine ⟨0, ?_, Nat.le_refl 0, ?_⟩
      · rw [List.take_zero]; exact textScan_nil true fuel
      · rw [List.take_zero]; exact Utf8Text.nil
    · obtain ⟨fl, rfl⟩ : ∃ fl, fuel = fl + 1 := ⟨fuel - 1, by omega⟩
      have hf' : (rest.take m').length < fl := by
        simp only [List.take_succ_cons, List.length_cons] at hfuel
        omega
      obtain ⟨k', hscan, hk', hval⟩ := ih m' fl hf'
      refine ⟨k' + 1, ?_, by omega, ?_⟩
      · simp only [List.take_succ_cons]
        rw [textScan_step, decodeRune_ascii b _ hb]
        dsimp only
        rw [if_neg (by simp only [beq_iff_eq, RuneError]; omega)]
        rw [show (b :: rest.take m').drop 1 = rest.take m' from rfl]
        rw [hscan]
        dsimp only
        rw [show 1 + k' = k' + 1 by omega]
      · rw [List.take_succ_cons]
        exact Utf8Text.ascii _ _ hb hval
  | two b0 b1 rest h2 ha _ ih =>
    intro m fuel hfuel
    have hb := runeLen_eq_two b0 h2
    rcases m with _ | _ | m'
    · refine ⟨0, ?_, Nat.le_refl 0, ?_⟩
      · rw [List.take_zero]; exact textScan_nil true fuel
      · rw [List.take_zero]; exact Utf8Text.nil
    · obtain ⟨fl, rfl⟩ : ∃ fl, fuel = fl + 1 := ⟨fuel - 1, by omega⟩
      refine ⟨0, ?_, by omega, ?_⟩
      · rw [show (b0 :: b1 :: rest).take 1 = [b0] from rfl]
        rw [textScan_step, decodeRune_two_short b0 h2]
        dsimp only
        rw [if_pos (by simp)]
        rw [if_pos (by
          simp [runeStart_of_multibyte b0 (by omega) (by omega)])]
      · rw [List.take_zero]; exact Utf8Text.nil
    · obtain ⟨fl, rfl⟩ : ∃ fl, fuel = fl + 1 := ⟨fuel - 1, by omega⟩
      have hf' : (rest.take m').length < fl := by
        simp only [List.take_succ_cons, List.length_cons] at hfuel
        omega
      obtain ⟨k', hscan, hk', hval⟩ := ih m' fl hf'
      refine ⟨k' + 1 + 1, ?_, by omega, ?_⟩
      · simp only [List.take_succ_cons]
        rw [textScan_step, decodeRune_two_full b0 b1 _ h2 ha]
        dsimp only
        rw [if_neg (by simpa using val2_ne_runeError b0 b1)]
        rw [show (b0 :: b1 :: rest.take m').drop 2 = rest.take m'
          from rfl]
        rw [hscan]
        dsimp only
        rw [show 2 + k' = k' + 1 + 1 by omega]
      · simp only [List.take_succ_cons]
        exact Utf8Text.two _ _ _ h2 ha hval
  | three b0 b1 b2 rest h3 ha hc hno _ ih =>
    intro m fuel hfuel
    have hb := runeLen_eq_three b0 h3
    rcases m with _ | _ | _ | m'
    · refine ⟨0, ?_, Nat.le_refl 0, ?_⟩
      · rw [List.take_zero]; exact textScan_nil true fuel
      · rw [List.take_zero]; exact Utf8Text.nil
    · obtain ⟨fl, rfl⟩ : ∃ fl, fuel = fl + 1 := ⟨fuel - 1, by omega⟩
      refine ⟨0, ?_, by omega, ?_⟩
      · rw [show (b0 :: b1 :: b2 :: rest).take 1 = [b0] from rfl]
        rw [textScan_step, (decodeRune_three_short b0 b1 h3).1]
        dsimp only
        rw [if_pos (by simp)]
        rw [if_pos (by
          simp [runeStart_of_multibyte b0 (by omega) (by omega)])]
      · rw [List.take_zero]; exact Utf8Text.nil
    · obtain ⟨fl, rfl⟩ : ∃ fl, fuel = fl + 1 := ⟨fuel - 1, by omega⟩
      refine ⟨0, ?_, by omega, ?_⟩
      · rw [show (b0 :: b1 :: b2 :: rest).take 2 = [b0, b1] from rfl]
        rw [textScan_step, (decodeRune_three_short b0 b1 h3).2]
        dsimp only
        rw [if_pos (by simp)]
        rw [if_pos (by
          simp [runeStart_of_multibyte b0 (by omega) (by omega)])]
      · rw [List.take_zero]; exact Utf8Text.nil
    · obtain ⟨fl, rfl⟩ : ∃ fl, fuel = fl + 1 := ⟨fuel - 1, by omega⟩
      have hf' : (rest.take m').length < fl := by
        simp only [List.take_succ_cons, List.length_cons] at hfuel
        omega
      obtain ⟨k', hscan, hk', hval⟩ := ih m' fl hf'
      refine ⟨k' + 1 + 1 + 1, ?_, by omega, ?_⟩
      · simp only [List.take_succ_cons]
        rw [textScan_step, decodeRune_three_full b0 b1 b2 _ h3 ha hc]
        dsimp only
        rw [if_neg (by simpa using val3_ne_runeError b0 b1 b2 h3 ha hc hno)]
        rw [show (b0 :: b1 :: b2 :: rest.take m').drop 3 = rest.take m'
          from rfl]
        rw [hscan]
        dsimp only
        rw [show 3 + k' = k' + 1 + 1 + 1 by omega]
      · simp only [List.take_succ_cons]
        exact Utf8Text.three _ _ _ _ h3 ha hc hno hval
  | four b0 b1 b2 b3 rest h4 ha hc hd _ ih =>
    intro m fuel hfuel
    have hb := runeLen_eq_four b0 h4
    rcases m with _ | _ | _ | _ | m'
    · refine ⟨0, ?_, Nat.le_refl 0, ?_⟩
      · rw [List.take_zero]; exact textScan_nil true fuel
      · rw [List.take_zero]; exact Utf8Text.nil
    · obtain ⟨fl, rfl⟩ : ∃ fl, fuel = fl + 1 := ⟨fuel - 1, by omega⟩
      refine ⟨0, ?_, by omega, ?_⟩
      · rw [show (b0 :: b1 :: b2 :: b3 :: rest).take 1 = [b0] from rfl]
        rw [textScan_step, (decodeRune_four_short b0 b1 b2 h4).1]
        dsimp only
        rw [if_pos (by simp)]
        rw [if_pos (by
          simp [runeStart_of_multibyte b0 (by omega) (by omega)])]
      · rw [List.take_zero]; exact Utf8Text.nil
    · obtain ⟨fl, rfl⟩ : ∃ fl, fuel = fl + 1 := ⟨fuel - 1, by omega⟩
      refine ⟨0, ?_, by omega, ?_⟩
      · rw [show (b0 :: b1 :: b2 :: b3 :: rest).take 2 = [b0, b1] from rfl]
        rw [textScan_step, (decodeRune_four_short b0 b1 b2 h4).2.1]
        dsimp only
        rw [if_pos (by simp)]
        rw [if_pos (by
          simp [runeStart_of_multibyte b0 (by omega) (by omega)])]
      · rw [List.take_zero]; exact Utf8Text.nil
    · obtain ⟨fl, rfl⟩ : ∃ fl, fuel = fl + 1 := ⟨fuel - 1, by omega⟩
      refine ⟨0, ?_, by omega, ?_⟩
      · rw [show (b0 :: b1 :: b2 :: b3 :: rest).take 3 = [b0, b1, b2]
          from rfl]
        rw [textScan_step, (decodeRune_four_short b0 b1 b2 h4).2.2]
        dsimp only
        rw [if_pos (by simp)]
        rw [if_pos (by
          simp [runeStart_of_multibyte b0 (by omega) (by omega)])]
      · rw [List.take_zero]; exact Utf8Text.nil
    · obtain ⟨fl, rfl⟩ : ∃ fl, fuel = fl + 1 := ⟨fuel - 1, by omega⟩
      have hf' : (rest.take m').length < fl := by
        simp only [List.take_succ_cons, List.length_cons] at hfuel
        omega
      obtain ⟨k', hscan, hk', hval⟩ := ih m' fl hf'
      refine ⟨k' + 1 + 1 + 1 + 1, ?_, by omega, ?_⟩
      · simp only [List.take_succ_cons]
        rw [textScan_step, decodeRune_four_full b0 b1 b2 b3 _ h4 ha hc hd]
        dsimp only
        rw [if_neg (by simpa using val4_ne_runeError b0 b1 b2 b3 h4 ha)]
        rw [show (b0 :: b1 :: b2 :: b3 :: rest.take m').drop 4 =
          rest.take m' from rfl]
        rw [hscan]
        dsimp only
        rw [show 4 + k' = k' + 1 + 1 + 1 + 1 by omega]
      · simp only [List.take_succ_cons]
        exact Utf8Text.four _ _ _ _ _ h4 ha hc hd hval

/-- C6 counterexample: the peer sends the valid UTF-8 text message
EF BF BD 61 62 (the replacement character U+FFFD followed by "ab"),
5 bytes, with maxLength 4.  The claim promises a rune-boundary prefix
of at most 4 bytes together with the too-large error; instead the scan
loop mistakes the genuine U+FFFD for a decoding failure (utf8.DecodeRune
returns the same value for both), fails the connection with
ProtocolViolation, and returns ErrConnClosed with an empty string. -/
theorem c6_receive_text_counterexample :
    doReceiveText 4
        ⟨[0xEF, 0xBF, 0xBD, 0x61, 0x62], [],
          ⟨5, [0, 0, 0, 0], true, Text⟩, 0, 0, false, []⟩ 4 =
      (some .connClosed,
       ⟨[], [], ⟨5, [0, 0, 0, 0], true, Text⟩, 5, ProtocolViolation,
         false, []⟩, []) ∧
    utf8Valid [0xEF, 0xBF, 0xBD, 0x61, 0x62] = true := by
  exact ⟨by decide, by decide⟩

/-- C6 (amended): for every text message that is a concatenation of
well-formed UTF-8 runes none of which is U+FFFD, sent as a single
final frame longer than maxLength bytes, ReceiveText returns
ErrTooLarge together with a prefix of the message of at most maxLength
bytes that ends on a UTF-8 rune boundary (a partial trailing
multi-byte sequence is trimmed off), and the rest of the message is
consumed. -/
theorem c6_receive_text_truncates (msg rest0 : List Nat)
    (maxLength f : Nat) (h : Utf8Text msg) (hlt : maxLength < msg.length)
    (hbound : msg.length < (f + 1) * 32768) :
    ∃ k, doReceiveText (f + 4)
        ⟨msg ++ rest0, [], ⟨msg.length, [0, 0, 0, 0], true, Text⟩, 0, 0,
          false, []⟩ maxLength =
      (some .tooLarge,
       ⟨rest0, [], ⟨msg.length, [0, 0, 0, 0], true, Text⟩, msg.length, 0,
         false, []⟩,
       msg.take k) ∧ k ≤ maxLength ∧ Utf8Text (msg.take k) := by
  rw [doReceiveText]
  rw [if_neg (by simp)]
  dsimp only
  rw [if_neg (by simp only [Bool.true_and, decide_eq_true_eq]; omega)]
  have hra := readAllLoop_tooLarge f
    ⟨msg ++ rest0, [], ⟨msg.length, [0, 0, 0, 0], true, Text⟩, 0, 0,
      false, []⟩ msg rest0 maxLength rfl rfl rfl (by simp) hlt hbound
  rw [hra]
  dsimp only
  obtain ⟨k, hscan, hk, hval⟩ := textScan_utf8_prefix msg h maxLength
    ((msg.take maxLength).length + 1) (by omega)
  rw [hscan]
  dsimp only
  refine ⟨k, ?_, hk, hval⟩
  rw [List.take_take, Nat.min_eq_left hk]

/-- C6 witness: the 3-byte ASCII message "abc" received with
maxLength 2 is truncated at a rune boundary with the too-large
error. -/
theorem c6_receive_text_truncates_witness :
    ∃ k, doReceiveText 4
        ⟨[97, 98, 99], [], ⟨3, [0, 0, 0, 0], true, Text⟩, 0, 0,
          false, []⟩ 2 =
      (some .tooLarge,
       ⟨[], [], ⟨3, [0, 0, 0, 0], true, Text⟩, 3, 0, false, []⟩,
       [97, 98, 99].take k) ∧ k ≤ 2 ∧ Utf8Text ([97, 98, 99].take k) :=
  c6_receive_text_truncates [97, 98, 99] [] 2 0
    (Utf8Text.ascii _ _ (by norm_num)
      (Utf8Text.ascii _ _ (by norm_num)
        (Utf8Text.ascii _ _ (by norm_num) Utf8Text.nil)))
    (by norm_num) (by norm_num)

/-- C4: for every upgrade request accepted by the handshake, the
Sec-WebSocket-Accept response header equals
base64(SHA1(key || "258EAFA5-E914-47DA-95CA-C5AB0DC85B11")) where key
is the value of the request's Sec-WebSocket-Key header. -/
theorem c4_accept_header (req : HsRequest) (accessOK : Bool)
    (rn acc : List Nat)
    (h : handshake req accessOK = some (rn, acc)) :
    acc = base64Encode (sha1 (req.secWebsocketKey ++ websocketGUID)) := by
  unfold handshake at h
  split_ifs at h <;>
    first
      | exact Option.noConfusion h
      | (rw [Option.some.injEq, Prod.mk.injEq] at h
         exact h.2.symm)

set_option maxRecDepth 100000 in
set_option maxHeartbeats 2000000 in
/-- C4 witness: the request of spec section 8 with key
dGhlIHNhbXBsZSBub25jZQ== is accepted and the accept header is the
ASCII of s3pPLMBiTxaQ9kYGzzhZRbK+xOo=. -/
theorem c4_accept_header_witness :
    handshake
        ⟨[71, 69, 84], 1, 1, true, [47, 99, 104, 97, 116], [],
          [[119, 101, 98, 115, 111, 99, 107, 101, 116]],
          [[85, 112, 103, 114, 97, 100, 101]],
          [100, 71, 104, 108, 73, 72, 78, 104, 98, 88, 66, 115, 90, 83,
            66, 117, 98, 50, 53, 106, 90, 81, 61, 61],
          [49, 51]⟩ true =
      some ([47, 99, 104, 97, 116],
        [115, 51, 112, 80, 76, 77, 66, 105, 84, 120, 97, 81, 57, 107, 89,
          71, 122, 122, 104, 90, 82, 98, 75, 43, 120, 79, 111, 61]) ∧
    ([115, 51, 112, 80, 76, 77, 66, 105, 84, 120, 97, 81, 57, 107, 89,
        71, 122, 122, 104, 90, 82, 98, 75, 43, 120, 79, 111, 61] :
      List Nat) =
      base64Encode (sha1
        ([100, 71, 104, 108, 73, 72, 78, 104, 98, 88, 66, 115, 90, 83,
          66, 117, 98, 50, 53, 106, 90, 81, 61, 61] ++ websocketGUID)) :=
  ⟨by decide,
   c4_accept_header
     ⟨[71, 69, 84], 1, 1, true, [47, 99, 104, 97, 116], [],
       [[119, 101, 98, 115, 111, 99, 107, 101, 116]],
       [[85, 112, 103, 114, 97, 100, 101]],
       [100, 71, 104, 108, 73, 72, 78, 104, 98, 88, 66, 115, 90, 83,
         66, 117, 98, 50, 53, 106, 90, 81, 61, 61],
       [49, 51]⟩ true [47, 99, 104, 97, 116]
     [115, 51, 112, 80, 76, 77, 66, 105, 84, 120, 97, 81, 57, 107, 89,
       71, 122, 122, 104, 90, 82, 98, 75, 43, 120, 79, 111, 61]
     (by decide)⟩

/-- C9 counterexample: a GET request in absolute form whose URI has an
empty path (for example "http://example.com") is accepted, and its
resource name is "/", while the claimed formula (path plus optional
"&" + query) yields the empty string. -/
theorem c9_resource_name_counterexample :
    (∃ acc, handshake
        ⟨[71, 69, 84], 1, 1, true, [], [],
          [[119, 101, 98, 115, 111, 99, 107, 101, 116]],
          [[85, 112, 103, 114, 97, 100, 101]], [120], [49, 51]⟩ true =
      some ([47], acc)) ∧
    claimedResourceName [] [] ≠ [47] := by
  constructor
  · exact ⟨_, rfl⟩
  · decide

/-- C9 (amended): for every accepted upgrade request, the resource
name is the path of the original request URI — with an empty path
replaced by "/" — followed by "&" and the query when the query is
nonempty. -/
theorem c9_resource_name (req : HsRequest) (accessOK : Bool)
    (rn acc : List Nat)
    (h : handshake req accessOK = some (rn, acc)) :
    rn = (if req.uriPath = [] then [47] else req.uriPath) ++
      (if req.uriQuery = [] then [] else 38 :: req.uriQuery) := by
  unfold handshake at h
  split_ifs at h <;>
    first
      | exact Option.noConfusion h
      | (rw [Option.some.injEq, Prod.mk.injEq] at h
         rw [← h.1]
         simp_all)

set_option maxRecDepth 100000 in
set_option maxHeartbeats 2000000 in
/-- C9 witness: a request for /chat?room=1 is accepted with resource
name /chat&room=1, matching the amended formula. -/
theorem c9_resource_name_witness :
    handshake
        ⟨[71, 69, 84], 1, 1, true, [47, 99, 104, 97, 116],
          [114, 111, 111, 109, 61, 49],
          [[119, 101, 98, 115, 111, 99, 107, 101, 116]],
          [[85, 112, 103, 114, 97, 100, 101]], [120], [49, 51]⟩ true =
      some ([47, 99, 104, 97, 116, 38, 114, 111, 111, 109, 61, 49],
        [74, 86, 120, 107, 109, 116, 75, 70, 106, 68, 99, 73, 47, 80,
          109, 47, 65, 71, 80, 69, 75, 83, 78, 54, 119, 84, 56, 61]) ∧
    ([47, 99, 104, 97, 116, 38, 114, 111, 111, 109, 61, 49] : List Nat) =
      (if ([47, 99, 104, 97, 116] : List Nat) = [] then [47]
        else [47, 99, 104, 97, 116]) ++
      (if ([114, 111, 111, 109, 61, 49] : List Nat) = [] then []
        else 38 :: [114, 111, 111, 109, 61, 49]) :=
  ⟨by decide,
   c9_resource_name
     ⟨[71, 69, 84], 1, 1, true, [47, 99, 104, 97, 116],
       [114, 111, 111, 109, 61, 49],
       [[119, 101, 98, 115, 111, 99, 107, 101, 116]],
       [[85, 112, 103, 114, 97, 100, 101]], [120], [49, 51]⟩ true
     [47, 99, 104, 97, 116, 38, 114, 111, 111, 109, 61, 49]
     [74, 86, 120, 107, 109, 116, 75, 70, 106, 68, 99, 73, 47, 80,
       109, 47, 65, 71, 80, 69, 75, 83, 78, 54, 119, 84, 56, 61]
     (by decide)⟩

end Websocket
